import Mathlib

/-!
Verification of the social-network FastAPI repository.

This file embeds the two services of the repository
(`src/FastAPI/main.py`, the validation-tutorial service, and
`src/FastAPI/twitter-api-fastapi/main.py`, the users/tweets service)
as executable Lean definitions and proves the specification claims
about them.

The flat-file JSON stores (`users.json`, `tweets.json`) are modelled at
byte level: a file is a `List Char`, `json.load` is an executable
recursive-descent parser and `json.dump` an executable serializer
matching Python's default output (`separators=(", ", ": ")`).
Shallow-embedding choices, noted where they occur:
* JSON numbers are integers (the repository never stores floats);
* `json.dump`'s `ensure_ascii` transcription of non-ASCII characters is
  not reproduced (output escapes quotes, backslashes and control
  characters, which denotes the same JSON value);
* datetimes are modelled without microseconds.
-/

namespace SocialNet

/-- JSON values, as produced by Python's `json.load` on the store files.
Numbers are restricted to integers (see the module docstring). -/
inductive Json where
  | null
  | bool (b : Bool)
  | num (n : Int)
  | str (s : String)
  | arr (elems : List Json)
  | obj (fields : List (String × Json))

/-- Decimal digits of a natural number, most significant first
(Python's `str(int)` for non-negative input). -/
def natChars (n : Nat) : List Char :=
  if h : n < 10 then [Char.ofNat (48 + n)]
  else natChars (n / 10) ++ [Char.ofNat (48 + n % 10)]
  decreasing_by exact Nat.div_lt_self (by omega) (by omega)

/-- Python's `str(int)`: optional minus sign followed by decimal digits. -/
def intChars (n : Int) : List Char :=
  if n < 0 then '-' :: natChars n.natAbs else natChars n.toNat

/-- Lower-case hexadecimal digit, as used by `json.dump`'s `\uXXXX` escapes. -/
def hexChar (n : Nat) : Char :=
  if n < 10 then Char.ofNat (48 + n) else Char.ofNat (87 + n)

/-- Escaping of one string character by `json.dump`: `"` and `\` get a
backslash escape, control characters a `\u00XX` escape, anything else is
emitted verbatim. -/
def escChar (c : Char) : List Char :=
  if c = '"' then ['\\', '"']
  else if c = '\\' then ['\\', '\\']
  else if c.toNat < 32 then
    ['\\', 'u', '0', '0', hexChar (c.toNat / 16), hexChar (c.toNat % 16)]
  else [c]

/-- Escape a whole string for JSON output. -/
def escapeChars : List Char → List Char
  | [] => []
  | c :: cs => escChar c ++ escapeChars cs

mutual

/-- Serializer matching Python's `json.dump` with its default separators
`(", ", ": ")`. -/
def dumpJson : Json → List Char
  | .null => "null".data
  | .bool true => "true".data
  | .bool false => "false".data
  | .num n => intChars n
  | .str s => '"' :: (escapeChars s.data ++ ['"'])
  | .arr es => '[' :: (dumpElems es ++ [']'])
  | .obj ms => '\x7b' :: (dumpMembers ms ++ ['\x7d'])

/-- Array elements, separated by `", "`. -/
def dumpElems : List Json → List Char
  | [] => []
  | [x] => dumpJson x
  | x :: y :: t => dumpJson x ++ ',' :: ' ' :: dumpElems (y :: t)

/-- Object members, `"key": value` separated by `", "`. -/
def dumpMembers : List (String × Json) → List Char
  | [] => []
  | [(k, v)] => '"' :: (escapeChars k.data ++ '"' :: ':' :: ' ' :: dumpJson v)
  | (k, v) :: m :: t =>
      '"' :: (escapeChars k.data ++ '"' :: ':' :: ' ' :: dumpJson v)
        ++ ',' :: ' ' :: dumpMembers (m :: t)

end

/-- JSON insignificant whitespace. -/
def isWs (c : Char) : Bool :=
  c = ' ' || c = '\n' || c = '\t' || c = '\r'

/-- Skip leading whitespace. -/
def skipWs : List Char → List Char
  | [] => []
  | c :: cs => if isWs c then skipWs cs else c :: cs

/-- Value of a hexadecimal digit character. -/
def hexVal (c : Char) : Option Nat :=
  if 48 ≤ c.toNat ∧ c.toNat ≤ 57 then some (c.toNat - 48)
  else if 97 ≤ c.toNat ∧ c.toNat ≤ 102 then some (c.toNat - 87)
  else if 65 ≤ c.toNat ∧ c.toNat ≤ 70 then some (c.toNat - 55)
  else none

/-- Single-character JSON string escapes. -/
def escCode (e : Char) : Option Char :=
  if e = '"' then some '"'
  else if e = '\\' then some '\\'
  else if e = '/' then some '/'
  else if e = 'n' then some '\n'
  else if e = 't' then some '\t'
  else if e = 'r' then some '\r'
  else if e = 'b' then some (Char.ofNat 8)
  else if e = 'f' then some (Char.ofNat 12)
  else none

/-- Parse the body of a JSON string (the opening quote already consumed),
returning the decoded characters and the input after the closing quote.
Raw control characters are rejected, as in Python's strict mode. -/
def parseStrBody : List Char → Option (List Char × List Char)
  | [] => none
  | c :: cs =>
    if c = '"' then some ([], cs)
    else if c = '\\' then
      match cs with
      | [] => none
      | e :: cs2 =>
        if e = 'u' then
          match cs2 with
          | a :: b :: c3 :: d :: cs3 =>
            match hexVal a, hexVal b, hexVal c3, hexVal d with
            | some va, some vb, some vc, some vd =>
              match parseStrBody cs3 with
              | some (s, r) =>
                  some (Char.ofNat (((va * 16 + vb) * 16 + vc) * 16 + vd) :: s, r)
              | none => none
            | _, _, _, _ => none
          | _ => none
        else
          match escCode e with
          | some ec =>
            match parseStrBody cs2 with
            | some (s, r) => some (ec :: s, r)
            | none => none
          | none => none
    else if c.toNat < 32 then none
    else
      match parseStrBody cs with
      | some (s, r) => some (c :: s, r)
      | none => none

/-- Accumulate a maximal run of decimal digits. -/
def takeDigits : List Char → Nat → Nat × List Char
  | [], acc => (acc, [])
  | c :: cs, acc =>
    if c.isDigit then takeDigits cs (acc * 10 + (c.toNat - 48))
    else (acc, c :: cs)

/-- Parse a JSON integer (optional minus sign, then digits).  Fractional
and exponent parts are not modelled (the repository never stores
floats); an input using them fails to parse. -/
def parseNumber : List Char → Option (Int × List Char)
  | [] => none
  | c :: cs =>
    if c = '-' then
      match cs with
      | [] => none
      | c2 :: _ =>
        if c2.isDigit then
          let p := takeDigits cs 0
          some (-(p.1 : Int), p.2)
        else none
    else if c.isDigit then
      let p := takeDigits (c :: cs) 0
      some ((p.1 : Int), p.2)
    else none

mutual

/-- Fuel-indexed recursive-descent parser for a JSON value, modelling
Python's `json.load`.  Returns the value and the unconsumed input. -/
def parseVal : Nat → List Char → Option (Json × List Char)
  | 0, _ => none
  | g + 1, cs =>
    match skipWs cs with
    | [] => none
    | c :: rest =>
      if c = 'n' then
        match rest with
        | 'u' :: 'l' :: 'l' :: r => some (Json.null, r)
        | _ => none
      else if c = 't' then
        match rest with
        | 'r' :: 'u' :: 'e' :: r => some (Json.bool true, r)
        | _ => none
      else if c = 'f' then
        match rest with
        | 'a' :: 'l' :: 's' :: 'e' :: r => some (Json.bool false, r)
        | _ => none
      else if c = '"' then
        match parseStrBody rest with
        | some (s, r) => some (Json.str (String.mk s), r)
        | none => none
      else if c = '[' then
        match parseElems g (skipWs rest) with
        | some (vs, r) => some (Json.arr vs, r)
        | none => none
      else if c = '\x7b' then
        match parseMembers g (skipWs rest) with
        | some (ms, r) => some (Json.obj ms, r)
        | none => none
      else
        match parseNumber (c :: rest) with
        | some (n, r) => some (Json.num n, r)
        | none => none

/-- Parse array elements up to and including the closing bracket. -/
def parseElems : Nat → List Char → Option (List Json × List Char)
  | 0, _ => none
  | g + 1, cs =>
    match cs with
    | [] => none
    | c :: rest =>
      if c = ']' then some ([], rest)
      else
        match parseVal g (c :: rest) with
        | none => none
        | some (v, r1) =>
          match skipWs r1 with
          | ',' :: r2 =>
            match skipWs r2 with
            | [] => none
            | c2 :: rest2 =>
              if c2 = ']' then none
              else
                match parseElems g (c2 :: rest2) with
                | some (vs, r3) => some (v :: vs, r3)
                | none => none
          | ']' :: r2 => some ([v], r2)
          | _ => none

/-- Parse object members up to and including the closing brace. -/
def parseMembers : Nat → List Char → Option (List (String × Json) × List Char)
  | 0, _ => none
  | g + 1, cs =>
    match cs with
    | [] => none
    | c :: rest =>
      if c = '\x7d' then some ([], rest)
      else if c = '"' then
        match parseStrBody rest with
        | none => none
        | some (k, r1) =>
          match skipWs r1 with
          | ':' :: r2 =>
            match parseVal g (skipWs r2) with
            | none => none
            | some (v, r3) =>
              match skipWs r3 with
              | ',' :: r4 =>
                match skipWs r4 with
                | '"' :: r5 =>
                  match parseMembers g ('"' :: r5) with
                  | some (ms, r6) => some ((String.mk k, v) :: ms, r6)
                  | none => none
                | _ => none
              | '\x7d' :: r4 => some ([(String.mk k, v)], r4)
              | _ => none
          | _ => none
      else none

end

/-- Model of `json.load` on a whole file: parse one JSON document, allowing
trailing whitespace; anything else after the document is an error
("Extra data"). -/
def loadJson (f : List Char) : Option Json :=
  match parseVal (f.length + 1) f with
  | some (j, rest) => if skipWs rest = [] then some j else none
  | none => none

/-- Writing `s` from position 0 into a file currently holding `old`,
without truncating: bytes of `old` beyond `s.length` survive.  This is
exactly what `f.seek(0); json.dump(results, f)` does. -/
def writeAt0 (old new : List Char) : List Char :=
  new ++ old.drop new.length

/-! ## Round-trip correctness of the JSON codec -/

/-- The input does not begin with a decimal digit, so a preceding number
token ends exactly where the input starts. -/
def headNotDigit : List Char → Bool
  | [] => true
  | c :: _ => !c.isDigit

mutual

/-- Fuel sufficient for `parseVal` to parse the serialization of `j`. -/
def needFuel : Json → Nat
  | .null => 1
  | .bool _ => 1
  | .num _ => 1
  | .str _ => 1
  | .arr es => 1 + needElems es
  | .obj ms => 1 + needMembers ms

/-- Fuel sufficient for `parseElems` on serialized elements. -/
def needElems : List Json → Nat
  | [] => 1
  | [x] => 1 + needFuel x
  | x :: y :: t => 1 + needFuel x + needElems (y :: t)

/-- Fuel sufficient for `parseMembers` on serialized members. -/
def needMembers : List (String × Json) → Nat
  | [] => 1
  | [(_, v)] => 1 + needFuel v
  | (_, v) :: m :: t => 1 + needFuel v + needMembers (m :: t)

end

/-! ## The users/tweets service (src/FastAPI/twitter-api-fastapi/main.py)

Data model.  A Python `uuid.UUID` is represented by its canonical
lowercase hyphenated text (what `str(uuid)` prints); `date` and
`datetime` are calendar records (microseconds, which the repository
never populates, are not modelled). -/

/-- A `uuid.UUID` value. -/
structure UUIDv where
  canonical : String

/-- A `datetime.date` value. -/
structure PyDate where
  year : Nat
  month : Nat
  day : Nat

/-- A `datetime.datetime` value (microseconds not modelled). -/
structure PyDateTime where
  year : Nat
  month : Nat
  day : Nat
  hour : Nat
  minute : Nat
  second : Nat

/-- Decimal digit character of `k mod 10`. -/
def digitChar (k : Nat) : Char := Char.ofNat (48 + k % 10)

/-- Two-digit zero-padded field (`%02d` for values below 100). -/
def pad2 (n : Nat) : List Char := [digitChar (n / 10), digitChar n]

/-- Four-digit zero-padded field (`%04d` for values below 10000). -/
def pad4 (n : Nat) : List Char :=
  [digitChar (n / 1000), digitChar (n / 100), digitChar (n / 10), digitChar n]

/-- Python's `str(date)`: ISO `YYYY-MM-DD`. -/
def pyStrDate (d : PyDate) : String :=
  String.mk (pad4 d.year ++ '-' :: pad2 d.month ++ '-' :: pad2 d.day)

/-- Python's `str(datetime)` with zero microseconds:
`YYYY-MM-DD HH:MM:SS` (space separator). -/
def pyStrDateTime (t : PyDateTime) : String :=
  String.mk (pad4 t.year ++ '-' :: pad2 t.month ++ '-' :: pad2 t.day
    ++ ' ' :: pad2 t.hour ++ ':' :: pad2 t.minute ++ ':' :: pad2 t.second)

/-- The `datetime.isoformat()` text, the form the framework uses when serializing
a datetime into a JSON response (`T` separator). -/
def isoDateTime (t : PyDateTime) : String :=
  String.mk (pad4 t.year ++ '-' :: pad2 t.month ++ '-' :: pad2 t.day
    ++ 'T' :: pad2 t.hour ++ ':' :: pad2 t.minute ++ ':' :: pad2 t.second)

/-- Pydantic model `User(UserBase)`: user_id, email, first_name,
last_name, optional birth_date. -/
structure User where
  user_id : UUIDv
  email : String
  first_name : String
  last_name : String
  birth_date : Option PyDate

/-- Pydantic model `UserRegister(User)`: adds the write-only password. -/
structure UserRegister extends User where
  password : String

/-- Pydantic model `Tweet`.  The source field `by` is spelled `by_` here
because `by` is reserved in Lean. -/
structure Tweet where
  tweet_id : UUIDv
  content : String
  created_at : PyDateTime
  updated_at : Option PyDateTime
  by_ : User

/-- Allowed hair colours of the tutorial service's `Person` model. -/
inductive HairColor where
  | white
  | brown
  | black
  | blonde
  | red

/-- Allowed countries of the tutorial service's `Location` model. -/
inductive Countries where
  | mexico
  | colombia
  | peru
  | venezuela
  | chile
  | argentina

/-- The declared literal value of each `HairColor` member. -/
def hairColorValue : HairColor → String
  | .white => "white"
  | .brown => "brown"
  | .black => "black"
  | .blonde => "blonde"
  | .red => "red"

/-- The declared literal value of each `Countries` member. -/
def countryValue : Countries → String
  | .mexico => "México"
  | .colombia => "Colombia"
  | .peru => "Perú"
  | .venezuela => "Venezuela"
  | .chile => "Chile"
  | .argentina => "Argentina"

/-- A Python value as it appears in a pydantic `.dict()` result:
JSON-native primitives, the non-native types the handlers coerce with
`str(...)`, enum members, and nested dicts. -/
inductive PyVal where
  | vNone
  | vStr (s : String)
  | vInt (n : Int)
  | vBool (b : Bool)
  | vUuid (u : UUIDv)
  | vDate (d : PyDate)
  | vDateTime (t : PyDateTime)
  | vHair (h : HairColor)
  | vCountry (c : Countries)
  | vDict (fields : List (String × PyVal))

/-- Python `str(...)` on the values the handlers coerce.  `str` of a
dict is never taken by the handlers and is left unmodelled. -/
def pyStr? : PyVal → Option String
  | .vNone => some "None"
  | .vStr s => some s
  | .vInt n => some (String.mk (intChars n))
  | .vBool true => some "True"
  | .vBool false => some "False"
  | .vUuid u => some u.canonical
  | .vDate d => some (pyStrDate d)
  | .vDateTime t => some (pyStrDateTime t)
  | .vHair _ => none
  | .vCountry _ => none
  | .vDict _ => none

/-- Python `d[k]` (a missing key would raise `KeyError`, hence `none`). -/
def pyGetItem (d : List (String × PyVal)) (k : String) : Option PyVal :=
  match d.find? (fun kv => kv.1 = k) with
  | some kv => some kv.2
  | none => none

/-- Python `d[k] = v`: overwrite in place when the key exists, keeping
its position, else append. -/
def setKey (d : List (String × PyVal)) (k : String) (v : PyVal) :
    List (String × PyVal) :=
  if d.any (fun kv => decide (kv.1 = k)) then
    d.map (fun kv => if kv.1 = k then (k, v) else kv)
  else d ++ [(k, v)]

/-- The `user.dict()` result for a `User`, in pydantic declaration order. -/
def User.dict (u : User) : List (String × PyVal) :=
  [("user_id", .vUuid u.user_id),
   ("email", .vStr u.email),
   ("first_name", .vStr u.first_name),
   ("last_name", .vStr u.last_name),
   ("birth_date", match u.birth_date with
     | none => .vNone
     | some d => .vDate d)]

/-- The `user.dict()` result for a `UserRegister` (inherited fields first). -/
def UserRegister.dict (u : UserRegister) : List (String × PyVal) :=
  User.dict u.toUser ++ [("password", .vStr u.password)]

/-- The `tweet.dict()` result: pydantic converts the nested author recursively. -/
def Tweet.dict (t : Tweet) : List (String × PyVal) :=
  [("tweet_id", .vUuid t.tweet_id),
   ("content", .vStr t.content),
   ("created_at", .vDateTime t.created_at),
   ("updated_at", match t.updated_at with
     | none => .vNone
     | some dt => .vDateTime dt),
   ("by", .vDict (User.dict t.by_))]

mutual

/-- The view `json.dump` takes of a Python object: `none` models the `TypeError`
raised on values with no JSON representation (UUID, date, enum, ...). -/
def pyToJson : PyVal → Option Json
  | .vNone => some Json.null
  | .vStr s => some (Json.str s)
  | .vInt n => some (Json.num n)
  | .vBool b => some (Json.bool b)
  | .vDict m =>
    match pyFieldsToJson m with
    | some fs => some (Json.obj fs)
    | none => none
  | _ => none

def pyFieldsToJson : List (String × PyVal) → Option (List (String × Json))
  | [] => some []
  | (k, v) :: t =>
    match pyToJson v, pyFieldsToJson t with
    | some j, some js => some ((k, j) :: js)
    | _, _ => none

end

/-- The dict mutations of `signup` (lines 103-107): `user.dict()`, then
`user_dict["user_id"] = str(user_dict["user_id"])` and
`user_dict["birth_date"] = str(user_dict["birth_date"])`. -/
def signupDict (user : UserRegister) : Option (List (String × PyVal)) := do
  let d0 := UserRegister.dict user
  let v1 ← pyGetItem d0 "user_id"
  let s1 ← pyStr? v1
  let d1 := setKey d0 "user_id" (.vStr s1)
  let v2 ← pyGetItem d1 "birth_date"
  let s2 ← pyStr? v2
  pure (setKey d1 "birth_date" (.vStr s2))

/-- The `signup` handler body (lines 100-112): `json.load` the whole
users file, convert the record, append, `f.seek(0)`, `json.dump` the
whole array without truncating, and return the user.  `none` models an
unhandled exception (missing/corrupt store file). -/
def signup (user : UserRegister) (f : List Char) :
    Option (List Char × User) := do
  let results ← match loadJson f with
    | some (Json.arr xs) => some xs
    | _ => none
  let ud ← signupDict user
  let recJ ← pyToJson (.vDict ud)
  let out := dumpJson (Json.arr (results ++ [recJ]))
  pure (writeAt0 f out, user.toUser)

/-- The dict mutations of `post` (lines 234-239): `tweet.dict()`, then
tweet_id, created_at, updated_at, and the nested author's user_id and
birth_date are replaced by their `str(...)` forms. -/
def postDict (tweet : Tweet) : Option (List (String × PyVal)) := do
  let d0 := Tweet.dict tweet
  let v1 ← pyGetItem d0 "tweet_id"
  let s1 ← pyStr? v1
  let d1 := setKey d0 "tweet_id" (.vStr s1)
  let v2 ← pyGetItem d1 "created_at"
  let s2 ← pyStr? v2
  let d2 := setKey d1 "created_at" (.vStr s2)
  let v3 ← pyGetItem d2 "updated_at"
  let s3 ← pyStr? v3
  let d3 := setKey d2 "updated_at" (.vStr s3)
  let vby ← pyGetItem d3 "by"
  let byd ← match vby with
    | .vDict m => some m
    | _ => none
  let v4 ← pyGetItem byd "user_id"
  let s4 ← pyStr? v4
  let byd1 := setKey byd "user_id" (.vStr s4)
  let v5 ← pyGetItem byd1 "birth_date"
  let s5 ← pyStr? v5
  let byd2 := setKey byd1 "birth_date" (.vStr s5)
  pure (setKey d3 "by" (.vDict byd2))

/-- The `post` handler body (lines 231-246). -/
def post (tweet : Tweet) (f : List Char) : Option (List Char × Tweet) := do
  let results ← match loadJson f with
    | some (Json.arr xs) => some xs
    | _ => none
  let td ← postDict tweet
  let recJ ← pyToJson (.vDict td)
  let out := dumpJson (Json.arr (results ++ [recJ]))
  pure (writeAt0 f out, tweet)

/-- The `home` handler (GET /, lines 189-203): return
`json.load("tweets.json")` verbatim. -/
def home (f : List Char) : Option Json := loadJson f

/-- The `show_all_users` handler (GET /users, lines 133-147). -/
def show_all_users (f : List Char) : Option Json := loadJson f

/-! ## Request/response validation (pydantic models, FastAPI shaping) -/

/-- Lowercase hexadecimal digit test. -/
def isHexDigit (c : Char) : Bool :=
  c.isDigit || (97 ≤ c.toNat && c.toNat ≤ 102)

/-- Canonical (lowercase, hyphenated 8-4-4-4-12) UUID text, the form a
`UUID` value prints as.  Pydantic would also accept and normalize other
spellings; only canonical forms circulate in this system. -/
def uuidCanonical (s : String) : Bool :=
  s.data.length = 36 &&
  (List.range 36).all (fun i =>
    if i = 8 ∨ i = 13 ∨ i = 18 ∨ i = 23 then s.data.getD i ' ' = '-'
    else isHexDigit (s.data.getD i ' '))

/-- Pydantic validation of a `UUID` field from a string. -/
def parseUUID (s : String) : Option UUIDv :=
  if uuidCanonical s then some ⟨s⟩ else none

/-- Split a character list at every occurrence of `c`. -/
def splitOnChar (c : Char) : List Char → List (List Char)
  | [] => [[]]
  | x :: t =>
    match splitOnChar c t with
    | h :: rt => if x = c then [] :: h :: rt else (x :: h) :: rt
    | [] => if x = c then [[], []] else [[x]]

/-- Minimal model of `EmailStr` validation (an external library):
`local@domain` with nonempty local part and a dotted domain. -/
def emailOk (s : String) : Bool :=
  match splitOnChar '@' s.data with
  | [lo, dom] => 1 ≤ lo.length && 3 ≤ dom.length && dom.any (fun ch => ch = '.')
  | _ => false

/-- Numeric value of a digit character. -/
def digitVal (c : Char) : Nat := c.toNat - 48

/-- Pydantic `date` parsing, restricted to the ISO `YYYY-MM-DD` text
this system produces; range checks as in `datetime.date`, with the
day-in-month rule simplified to 1..31. -/
def parseDate (s : String) : Option PyDate :=
  match s.data with
  | [y1, y2, y3, y4, h1, m1, m2, h2, d1, d2] =>
    if y1.isDigit && y2.isDigit && y3.isDigit && y4.isDigit
        && h1 = '-' && h2 = '-' && m1.isDigit && m2.isDigit
        && d1.isDigit && d2.isDigit then
      let y := ((digitVal y1 * 10 + digitVal y2) * 10 + digitVal y3) * 10
        + digitVal y4
      let mo := digitVal m1 * 10 + digitVal m2
      let dy := digitVal d1 * 10 + digitVal d2
      if 1 ≤ y && 1 ≤ mo && mo ≤ 12 && 1 ≤ dy && dy ≤ 31 then
        some ⟨y, mo, dy⟩
      else none
    else none
  | _ => none

/-- Pydantic `datetime` parsing, restricted to
`YYYY-MM-DD HH:MM:SS` / `YYYY-MM-DDTHH:MM:SS` (the forms this system
produces); in particular the string "None" is rejected. -/
def parseDateTime (s : String) : Option PyDateTime :=
  match s.data with
  | [y1, y2, y3, y4, ha, m1, m2, hb, d1, d2, sep,
     h1, h2, hc, mi1, mi2, hd, s1, s2] =>
    if y1.isDigit && y2.isDigit && y3.isDigit && y4.isDigit
        && ha = '-' && hb = '-' && m1.isDigit && m2.isDigit
        && d1.isDigit && d2.isDigit && (sep = ' ' || sep = 'T')
        && h1.isDigit && h2.isDigit && hc = ':' && mi1.isDigit && mi2.isDigit
        && hd = ':' && s1.isDigit && s2.isDigit then
      let y := ((digitVal y1 * 10 + digitVal y2) * 10 + digitVal y3) * 10
        + digitVal y4
      let mo := digitVal m1 * 10 + digitVal m2
      let dy := digitVal d1 * 10 + digitVal d2
      let hh := digitVal h1 * 10 + digitVal h2
      let mi := digitVal mi1 * 10 + digitVal mi2
      let ss := digitVal s1 * 10 + digitVal s2
      if 1 ≤ y && 1 ≤ mo && mo ≤ 12 && 1 ≤ dy && dy ≤ 31
          && hh ≤ 23 && mi ≤ 59 && ss ≤ 59 then
        some ⟨y, mo, dy, hh, mi, ss⟩
      else none
    else none
  | _ => none

/-- Lookup in a JSON object. -/
def objGet (fs : List (String × Json)) (k : String) : Option Json :=
  match fs.find? (fun kv => kv.1 = k) with
  | some kv => some kv.2
  | none => none

/-- Pydantic validation of a `User` from JSON data: required user_id
(UUID), email (EmailStr), first/last name of 1..50 characters, optional
birth_date defaulting to None. -/
def userFromJson (j : Json) : Option User :=
  match j with
  | Json.obj fs => do
    let uid ← match objGet fs "user_id" with
      | some (Json.str s) => parseUUID s
      | _ => none
    let em ← match objGet fs "email" with
      | some (Json.str s) => if emailOk s then some s else none
      | _ => none
    let fn ← match objGet fs "first_name" with
      | some (Json.str s) =>
        if 1 ≤ s.length && s.length ≤ 50 then some s else none
      | _ => none
    let ln ← match objGet fs "last_name" with
      | some (Json.str s) =>
        if 1 ≤ s.length && s.length ≤ 50 then some s else none
      | _ => none
    let bd ← match objGet fs "birth_date" with
      | none => some Option.none
      | some Json.null => some Option.none
      | some (Json.str s) =>
        match parseDate s with
        | some d => some (some d)
        | none => none
      | some _ => none
    pure ⟨uid, em, fn, ln, bd⟩
  | _ => none

/-- Pydantic validation of a `UserRegister` (the signup body):
the `User` fields plus a password of at least 8 characters. -/
def userRegisterFromJson (j : Json) : Option UserRegister := do
  let u ← userFromJson j
  match j with
  | Json.obj fs =>
    match objGet fs "password" with
    | some (Json.str p) => if 8 ≤ p.length then some ⟨u, p⟩ else none
    | _ => none
  | _ => none

/-- Pydantic validation of a `Tweet` from JSON.  `defaultCreatedAt` is
the value `datetime.now()` returned once at module load: the schema
default applied whenever created_at is absent. -/
def tweetFromJson (defaultCreatedAt : PyDateTime) (j : Json) : Option Tweet :=
  match j with
  | Json.obj fs =>
    match (match objGet fs "tweet_id" with
      | some (Json.str s) => parseUUID s
      | _ => none) with
    | none => none
    | some tid =>
    match (match objGet fs "content" with
      | some (Json.str s) =>
        if 1 ≤ s.length && s.length ≤ 256 then some s else none
      | _ => none) with
    | none => none
    | some c =>
    match (match objGet fs "created_at" with
      | none => some defaultCreatedAt
      | some (Json.str s) => parseDateTime s
      | some _ => none) with
    | none => none
    | some ca =>
    match (match objGet fs "updated_at" with
      | none => some Option.none
      | some Json.null => some Option.none
      | some (Json.str s) =>
        match parseDateTime s with
        | some t => some (some t)
        | none => none
      | some _ => none) with
    | none => none
    | some ua =>
    match (match objGet fs "by" with
      | some bj => userFromJson bj
      | none => none) with
    | none => none
    | some byU => some ⟨tid, c, ca, ua, byU⟩
  | _ => none

/-- FastAPI's serialization of a `User` into a JSON response: UUID as
its string, date by `isoformat`, None as null. -/
def encodeUser (u : User) : Json :=
  Json.obj [("user_id", Json.str u.user_id.canonical),
    ("email", Json.str u.email),
    ("first_name", Json.str u.first_name),
    ("last_name", Json.str u.last_name),
    ("birth_date", match u.birth_date with
      | none => Json.null
      | some d => Json.str (pyStrDate d))]

/-- FastAPI's serialization of a `Tweet` into a JSON response. -/
def encodeTweet (t : Tweet) : Json :=
  Json.obj [("tweet_id", Json.str t.tweet_id.canonical),
    ("content", Json.str t.content),
    ("created_at", Json.str (isoDateTime t.created_at)),
    ("updated_at", match t.updated_at with
      | none => Json.null
      | some dt => Json.str (isoDateTime dt)),
    ("by", encodeUser t.by_)]

/-- The outcome of an HTTP request as seen by the caller. -/
inductive Resp (α : Type) where
  | success (status : Nat) (body : α)
  | validationError
  | httpError (status : Nat) (detail : String)
  | responseError
  | fatal

/-- POST /signup: the body is validated as `UserRegister` before the
handler runs; a validation failure leaves the file untouched.  Returns
the response and the users-file content after the request. -/
def signupEndpoint (body : Json) (f : List Char) : Resp Json × List Char :=
  match userRegisterFromJson body with
  | none => (.validationError, f)
  | some u =>
    match signup u f with
    | none => (.fatal, f)
    | some (f2, ru) => (.success 201 (encodeUser ru), f2)

/-- POST /post, analogous to `signupEndpoint`.  `defaultCreatedAt` is
the frozen schema default (see `tweetFromJson`). -/
def postEndpoint (defaultCreatedAt : PyDateTime) (body : Json)
    (f : List Char) : Resp Json × List Char :=
  match tweetFromJson defaultCreatedAt body with
  | none => (.validationError, f)
  | some t =>
    match post t f with
    | none => (.fatal, f)
    | some (f2, rt) => (.success 201 (encodeTweet rt), f2)

/-- Validate every element of a list, failing if any element fails. -/
def validateList {α : Type} (g : Json → Option α) : List Json → Option (List α)
  | [] => some []
  | j :: t =>
    match g j, validateList g t with
    | some a, some as => some (a :: as)
    | _, _ => none

/-- Response validation for `response_model=List[Tweet]`: every element
must re-validate as a `Tweet`. -/
def tweetsOfJson (defaultCreatedAt : PyDateTime) (j : Json) :
    Option (List Tweet) :=
  match j with
  | Json.arr es => validateList (tweetFromJson defaultCreatedAt) es
  | _ => none

/-- GET /: `home` returns the parsed file, which the framework then
validates against `response_model=List[Tweet]` and serializes.  A
record that no longer re-validates (e.g. an `updated_at` stored as the
string "None") turns the whole request into a response-validation
failure. -/
def homeEndpoint (defaultCreatedAt : PyDateTime) (f : List Char) : Resp Json :=
  match home f with
  | none => .fatal
  | some j =>
    match tweetsOfJson defaultCreatedAt j with
    | none => .responseError
    | some ts => .success 200 (Json.arr (ts.map encodeTweet))

/-! Stub handlers: a `pass` body returns Python `None`. -/

/-- POST /login (lines 115-123). -/
def login : Option User := none

/-- GET /users/user_id (lines 150-158). -/
def show_a_user : Option User := none

/-- DELETE /users/user_id/delete (lines 160-168). -/
def delete_a_user : Option User := none

/-- PUT /users/user_id/update (lines 170-178; the source reuses the
name `delete_a_user` for this handler too). -/
def update_a_user : Option User := none

/-- GET /tweets/tweet_id (lines 249-257). -/
def show_a_tweet : Option Tweet := none

/-- DELETE /tweets/tweet_id/delete (lines 260-268). -/
def delete_a_tweet : Option Tweet := none

/-- PUT /tweets/tweet_id/update (lines 271-279). -/
def update_a_tweet : Option Tweet := none

/-- FastAPI renders a handler result against the declared
`response_model`: a Python `None` fails the response validation (the
request ends in a server error), a real value is serialized with the
declared status code. -/
def renderWithModel {α : Type} (encode : α → Json) (declaredStatus : Nat)
    (ret : Option α) : Resp Json :=
  match ret with
  | none => .responseError
  | some a => .success declaredStatus (encode a)

/-- The `datetime.now()` value captured once when the module is imported: the
value baked into the `Tweet.created_at` schema default. -/
structure AppClock where
  loadTime : PyDateTime

/-- The `Tweet.created_at` default: fixed at schema definition. -/
def tweetCreatedAtDefault (m : AppClock) : PyDateTime := m.loadTime

/-- Body validation for POST /post in a process whose module loaded at
`m.loadTime`. -/
def tweetBodyValidate (m : AppClock) (j : Json) : Option Tweet :=
  tweetFromJson (tweetCreatedAtDefault m) j

/-! ## The validation-tutorial service (src/FastAPI/main.py) -/

/-- Pydantic model `Person` (lines 46-79). -/
structure Person where
  first_name : String
  last_name : String
  age : Int
  hair_color : Option HairColor
  is_married : Option Bool
  password : String

/-- Pydantic model `Location` (lines 82-98). -/
structure Location where
  city : String
  state : String
  country : Countries

/-- The declared field constraints of `Person`: names 1..50 characters,
age greater than 0 and at most 120, password at least 8 characters;
hair_color and is_married are optional with default None. -/
def personOk (p : Person) : Bool :=
  1 ≤ p.first_name.length && p.first_name.length ≤ 50
  && 1 ≤ p.last_name.length && p.last_name.length ≤ 50
  && 0 < p.age && p.age ≤ 120
  && 8 ≤ p.password.length

/-- The declared field constraints of `Location`: city and state 1..50
characters (the country is already a member of the enumeration). -/
def locationOk (l : Location) : Bool :=
  1 ≤ l.city.length && l.city.length ≤ 50
  && 1 ≤ l.state.length && l.state.length ≤ 50

/-- The `create_person` handler (lines 124-125): returns its body. -/
def create_person (user : Person) : Person := user

/-- The `person.dict()` result in pydantic declaration order. -/
def Person.dict (p : Person) : List (String × PyVal) :=
  [("first_name", .vStr p.first_name),
   ("last_name", .vStr p.last_name),
   ("age", .vInt p.age),
   ("hair_color", match p.hair_color with
     | none => .vNone
     | some h => .vHair h),
   ("is_married", match p.is_married with
     | none => .vNone
     | some b => .vBool b),
   ("password", .vStr p.password)]

/-- The `location.dict()` result. -/
def Location.dict (l : Location) : List (String × PyVal) :=
  [("city", .vStr l.city),
   ("state", .vStr l.state),
   ("country", .vCountry l.country)]

mutual

/-- FastAPI's jsonable encoding of a Python value for a response: enum
members become their declared literal values, None becomes null,
UUID/date/datetime become strings. -/
def encodePyVal : PyVal → Json
  | .vNone => Json.null
  | .vStr s => Json.str s
  | .vInt n => Json.num n
  | .vBool b => Json.bool b
  | .vUuid u => Json.str u.canonical
  | .vDate d => Json.str (pyStrDate d)
  | .vDateTime t => Json.str (isoDateTime t)
  | .vHair h => Json.str (hairColorValue h)
  | .vCountry c => Json.str (countryValue c)
  | .vDict m => Json.obj (encodePyFields m)

def encodePyFields : List (String × PyVal) → List (String × Json)
  | [] => []
  | (k, v) :: t => (k, encodePyVal v) :: encodePyFields t

end

/-- POST /person/new response shaping: `response_model=Person` with
`response_model_exclude` containing "password" drops exactly that key
from the model dict before serialization. -/
def create_person_response (p : Person) : Json :=
  Json.obj (encodePyFields
    ((create_person p).dict.filter (fun kv => kv.1 != "password")))

/-- POST /person/new: body validation, then the handler, then response
shaping. -/
def create_person_endpoint (p : Person) : Resp Json :=
  if personOk p then .success 201 (create_person_response p)
  else .validationError

/-- GET /person/detail query validation: `name` is optional (1..50
characters when present), `age` is required — the source declares no
numeric bounds on this query parameter. -/
def detailQueryOk (name : Option String) (age : Option Int) : Bool :=
  (match name with
   | none => true
   | some s => 1 ≤ s.length && s.length ≤ 50)
  && age.isSome

/-- The first `show_person` handler (lines 133-149): returns the dict
with `name` as key and `age` as value; a None key serializes as
"null". -/
def show_person (name : Option String) (age : Int) : Json :=
  Json.obj [(match name with
    | none => "null"
    | some s => s, Json.num age)]

/-- GET /person/detail. -/
def show_person_query_endpoint (name : Option String) (age : Option Int) :
    Resp Json :=
  if detailQueryOk name age then
    match age with
    | some a => .success 200 (show_person name a)
    | none => .validationError
  else .validationError

/-- The static id list (line 154); not derived from any store. -/
def persons : List Int := [1, 2, 3, 4, 5]

/-- GET /person/detail/person_id: the path parameter is validated as an
integer greater than 0 (so 0 and negative ids are rejected with a
validation error before the handler); the handler raises a 404
`HTTPException` for ids outside `persons` and otherwise answers
"It exists!" keyed by the id. -/
def show_person_by_id_endpoint (person_id : Int) : Resp Json :=
  if person_id ≤ 0 then .validationError
  else if person_id ∈ persons then
    .success 200 (Json.obj [(String.mk (intChars person_id),
      Json.str "It exists!")])
  else .httpError 404 "This person doesn\x27t exist!!!"

/-- Python `dict.update`: merge the second dict into the first, in
order, overwriting existing keys. -/
def dictUpdate (d1 d2 : List (String × PyVal)) : List (String × PyVal) :=
  d2.foldl (fun acc kv => setKey acc kv.1 kv.2) d1

/-- The `update_person` handler (lines 180-196): start from the dict
with only "id", merge `person.dict()`, then merge `location.dict()`,
and return the result — no response_model is declared, so nothing is
stripped. -/
def update_person (person_id : Int) (person : Person) (location : Location) :
    List (String × PyVal) :=
  dictUpdate (dictUpdate [("id", .vInt person_id)] person.dict) location.dict

/-- PUT /person/person_id: path id greater than 0 plus both bodies
valid, then the handler's dict is serialized as the response. -/
def update_person_endpoint (person_id : Int) (person : Person)
    (location : Location) : Resp Json :=
  if 0 < person_id && personOk person && locationOk location then
    .success 200 (Json.obj (encodePyFields
      (update_person person_id person location)))
  else .validationError

/-! ## Specification-side descriptions of the persisted records

These two definitions follow the words of the spec ("convert the new
record's non-JSON-native fields — identifiers, dates, timestamps, and
the same fields nested inside any embedded author — to strings"); the
claim theorems prove that the handlers produce exactly these records. -/

/-- Python `str(...)` of an optional date, as the handlers apply it. -/
def pyStrOptDate : Option PyDate → String
  | none => "None"
  | some d => pyStrDate d

/-- Python `str(...)` of an optional datetime, as the handlers apply it. -/
def pyStrOptDateTime : Option PyDateTime → String
  | none => "None"
  | some t => pyStrDateTime t

/-- The record the spec says `signup` persists: every field of the user
dict, with the identifier and the date field coerced to strings. -/
def userStoreRecord (u : UserRegister) : Json :=
  Json.obj [("user_id", Json.str u.user_id.canonical),
    ("email", Json.str u.email),
    ("first_name", Json.str u.first_name),
    ("last_name", Json.str u.last_name),
    ("birth_date", Json.str (pyStrOptDate u.birth_date)),
    ("password", Json.str u.password)]

/-- The record the spec says `post` persists: identifier and both
timestamps coerced to strings, and the embedded author's identifier and
birth date likewise coerced. -/
def tweetStoreRecord (t : Tweet) : Json :=
  Json.obj [("tweet_id", Json.str t.tweet_id.canonical),
    ("content", Json.str t.content),
    ("created_at", Json.str (pyStrDateTime t.created_at)),
    ("updated_at", Json.str (pyStrOptDateTime t.updated_at)),
    ("by", Json.obj [("user_id", Json.str t.by_.user_id.canonical),
      ("email", Json.str t.by_.email),
      ("first_name", Json.str t.by_.first_name),
      ("last_name", Json.str t.by_.last_name),
      ("birth_date", Json.str (pyStrOptDate t.by_.birth_date))])]

/-! Validity of payload values, as guaranteed by pydantic body
validation for values that entered through an endpoint. -/

/-- A well-formed `datetime.date` value (day-in-month simplified). -/
def dateOk (d : PyDate) : Bool :=
  1 ≤ d.year && d.year ≤ 9999 && 1 ≤ d.month && d.month ≤ 12
  && 1 ≤ d.day && d.day ≤ 31

/-- A well-formed `datetime.datetime` value. -/
def dateTimeOk (t : PyDateTime) : Bool :=
  1 ≤ t.year && t.year ≤ 9999 && 1 ≤ t.month && t.month ≤ 12
  && 1 ≤ t.day && t.day ≤ 31 && t.hour ≤ 23 && t.minute ≤ 59 && t.second ≤ 59

/-- The constraints body validation guarantees for a `User` value. -/
def userOk (u : User) : Bool :=
  uuidCanonical u.user_id.canonical && emailOk u.email
  && 1 ≤ u.first_name.length && u.first_name.length ≤ 50
  && 1 ≤ u.last_name.length && u.last_name.length ≤ 50
  && (match u.birth_date with
      | none => true
      | some d => dateOk d)

/-- The constraints body validation guarantees for a `Tweet` value. -/
def tweetOk (t : Tweet) : Bool :=
  uuidCanonical t.tweet_id.canonical
  && 1 ≤ t.content.length && t.content.length ≤ 256
  && dateTimeOk t.created_at
  && (match t.updated_at with
      | none => true
      | some dt => dateTimeOk dt)
  && userOk t.by_

/-! Concrete values used by the witness theorems. -/

/-- A canonical UUID. -/
def uuid0 : UUIDv := ⟨"3fa85f64-5717-4562-b3fc-2c963f66afa6"⟩

/-- A second canonical UUID. -/
def uuid1 : UUIDv := ⟨"7c9e6679-7425-40de-944b-e07fc1f90ae7"⟩

/-- A sample birth date. -/
def date0 : PyDate := ⟨1990, 4, 7⟩

/-- A sample timestamp. -/
def dt0 : PyDateTime := ⟨2021, 12, 31, 23, 5, 9⟩

/-- A second sample timestamp. -/
def dt1 : PyDateTime := ⟨2022, 1, 2, 3, 4, 5⟩

/-- A sample registered user with a birth date. -/
def user0 : UserRegister :=
  ⟨⟨uuid0, "alice@example.com", "Alice", "Smith", some date0⟩, "secretpw"⟩

/-- A sample registered user without a birth date. -/
def user1 : UserRegister :=
  ⟨⟨uuid0, "alice@example.com", "Alice", "Smith", none⟩, "secretpw"⟩

/-- A sample tweet with every optional field populated. -/
def tweet0 : Tweet := ⟨uuid1, "hello world", dt0, some dt1, user0.toUser⟩

/-- A sample tweet without `updated_at` (the pydantic default `None`). -/
def tweet1 : Tweet := ⟨uuid1, "hello world", dt0, none, user0.toUser⟩

/-- A sample valid person. -/
def person0 : Person := ⟨"Alex", "Martinez", 30, some .black, some true, "longpassword"⟩

/-- A person whose age violates the declared bound. -/
def person200 : Person := ⟨"Alex", "Martinez", 200, none, none, "longpassword"⟩

/-- A sample valid location. -/
def location0 : Location := ⟨"Merida", "Yucatan", .mexico⟩

/-- The fields of a tweet body without a created_at key. -/
def tweetBody0 : List (String × Json) :=
  [("tweet_id", Json.str uuid1.canonical),
    ("content", Json.str "first"),
    ("by", encodeUser user0.toUser)]

/-- The fields of another tweet body without a created_at key. -/
def tweetBody1 : List (String × Json) :=
  [("tweet_id", Json.str uuid0.canonical),
    ("content", Json.str "second"),
    ("by", encodeUser user0.toUser)]

/-! ## Proofs -/

theorem string_mk_data (s : String) : String.mk s.data = s := by
  cases s; rfl

theorem isDigit_toNat {c : Char} (h : c.isDigit = true) :
    48 ≤ c.toNat ∧ c.toNat ≤ 57 := by
  simp only [Char.isDigit, decide_eq_true_eq, Bool.and_eq_true] at h
  obtain ⟨h1, h2⟩ := h
  exact ⟨h1, h2⟩

theorem char_ne_of_toNat {c d : Char} (h : c.toNat ≠ d.toNat) : c ≠ d :=
  fun he => h (he ▸ rfl)

theorem takeDigits_stop (cs : List Char) (acc : Nat)
    (h : headNotDigit cs = true) : takeDigits cs acc = (acc, cs) := by
  cases cs with
  | nil => rfl
  | cons c t =>
    simp only [headNotDigit, Bool.not_eq_true'] at h
    simp [takeDigits, h]

theorem digitChar_spec (n : Nat) (h : n < 10) :
    (Char.ofNat (48 + n)).isDigit = true ∧ (Char.ofNat (48 + n)).toNat = 48 + n := by
  interval_cases n <;> exact ⟨by decide, by decide⟩

theorem natChars_head (n : Nat) :
    ∃ c cs, natChars n = c :: cs ∧ c.isDigit = true := by
  induction n using natChars.induct with
  | case1 n h =>
    exact ⟨Char.ofNat (48 + n), [], by rw [natChars]; simp [h],
      (digitChar_spec n h).1⟩
  | case2 n h ih =>
    obtain ⟨c, cs, hcs, hd⟩ := ih
    refine ⟨c, cs ++ [Char.ofNat (48 + n % 10)], ?_, hd⟩
    rw [natChars]; simp [h, hcs]

theorem takeDigits_natChars (n : Nat) : ∀ acc rest,
    takeDigits (natChars n ++ rest) acc
      = takeDigits rest (acc * 10 ^ (natChars n).length + n) := by
  induction n using natChars.induct with
  | case1 n h =>
    intro acc rest
    rw [natChars]
    simp only [h, dite_true, List.cons_append, List.nil_append,
      List.length_cons, List.length_nil]
    rw [takeDigits]
    simp [(digitChar_spec n h).1, (digitChar_spec n h).2]
  | case2 n h ih =>
    intro acc rest
    rw [natChars]
    simp only [h, dite_false, List.append_assoc, List.cons_append,
      List.nil_append, List.length_append, List.length_cons, List.length_nil]
    rw [ih]
    rw [takeDigits]
    have h10 : 0 < (10 : Nat) := by omega
    simp only [(digitChar_spec (n % 10) (Nat.mod_lt n h10)).1,
      (digitChar_spec (n % 10) (Nat.mod_lt n h10)).2, if_true]
    congr 1
    have hdm : 10 * (n / 10) + n % 10 = n := Nat.div_add_mod n 10
    have hp : 10 ^ ((natChars (n / 10)).length + (0 + 1))
        = 10 ^ (natChars (n / 10)).length * 10 := by
      rw [Nat.pow_succ]
    rw [hp]
    set P := 10 ^ (natChars (n / 10)).length
    ring_nf
    omega

theorem takeDigits_natChars_stop (n : Nat) (rest : List Char)
    (h : headNotDigit rest = true) :
    takeDigits (natChars n ++ rest) 0 = (n, rest) := by
  rw [takeDigits_natChars, takeDigits_stop _ _ h]
  simp

theorem parseNumber_intChars (n : Int) (rest : List Char)
    (h : headNotDigit rest = true) :
    parseNumber (intChars n ++ rest) = some (n, rest) := by
  unfold intChars
  split
  case isTrue hneg =>
    obtain ⟨c, cs, hc, hd⟩ := natChars_head n.natAbs
    rw [hc]
    simp only [List.cons_append]
    rw [parseNumber]
    simp only [if_pos rfl]
    simp only [hd, if_true]
    rw [← List.cons_append, ← hc, takeDigits_natChars_stop _ _ h]
    simp only [Option.some.injEq, Prod.mk.injEq]
    exact ⟨by omega, trivial⟩
  case isFalse hpos =>
    obtain ⟨c, cs, hc, hd⟩ := natChars_head n.toNat
    rw [hc]
    simp only [List.cons_append]
    rw [parseNumber.eq_def]
    have hne : c ≠ '-' := by
      refine char_ne_of_toNat ?_
      have := isDigit_toNat hd
      have hm : ('-' : Char).toNat = 45 := by decide
      omega
    simp only [hne, if_false, hd, if_true]
    rw [← List.cons_append, ← hc, takeDigits_natChars_stop _ _ h]
    simp only [Option.some.injEq, Prod.mk.injEq]
    exact ⟨by omega, trivial⟩

theorem hexVal_hexChar (k : Nat) (h : k < 16) : hexVal (hexChar k) = some k := by
  interval_cases k <;> decide

theorem parseStrBody_cons (c : Char) (cs : List Char) :
    parseStrBody (c :: cs) =
      if c = '"' then some ([], cs)
      else if c = '\\' then
        match cs with
        | [] => none
        | e :: cs2 =>
          if e = 'u' then
            match cs2 with
            | a :: b :: c3 :: d :: cs3 =>
              match hexVal a, hexVal b, hexVal c3, hexVal d with
              | some va, some vb, some vc, some vd =>
                match parseStrBody cs3 with
                | some (s, r) =>
                    some (Char.ofNat (((va * 16 + vb) * 16 + vc) * 16 + vd) :: s, r)
                | none => none
              | _, _, _, _ => none
            | _ => none
          else
            match escCode e with
            | some ec =>
              match parseStrBody cs2 with
              | some (s, r) => some (ec :: s, r)
              | none => none
            | none => none
      else if c.toNat < 32 then none
      else
        match parseStrBody cs with
        | some (s, r) => some (c :: s, r)
        | none => none := by
  rw [parseStrBody.eq_def]

theorem parseStrBody_escape (s rest : List Char) :
    parseStrBody (escapeChars s ++ '"' :: rest) = some (s, rest) := by
  induction s with
  | nil =>
    rw [show escapeChars [] = ([] : List Char) from rfl, List.nil_append,
      parseStrBody_cons]
    simp
  | cons c t ih =>
    show parseStrBody ((escChar c ++ escapeChars t) ++ '"' :: rest) = _
    rw [List.append_assoc]
    by_cases h1 : c = '"'
    · subst h1
      rw [show escChar '"' = ['\\', '"'] from rfl]
      rw [show (['\\', '"'] : List Char) ++ (escapeChars t ++ '"' :: rest)
            = '\\' :: '"' :: (escapeChars t ++ '"' :: rest) from rfl]
      rw [parseStrBody_cons]
      simp [escCode, ih]
    · by_cases h2 : c = '\\'
      · subst h2
        rw [show escChar '\\' = ['\\', '\\'] from rfl]
        rw [show (['\\', '\\'] : List Char) ++ (escapeChars t ++ '"' :: rest)
              = '\\' :: '\\' :: (escapeChars t ++ '"' :: rest) from rfl]
        rw [parseStrBody_cons]
        simp [escCode, ih]
      · by_cases h3 : c.toNat < 32
        · rw [show escChar c = ['\\', 'u', '0', '0', hexChar (c.toNat / 16),
              hexChar (c.toNat % 16)] from by
            simp only [escChar, h1, if_false, h2, h3, if_true]]
          rw [show (['\\', 'u', '0', '0', hexChar (c.toNat / 16),
              hexChar (c.toNat % 16)] : List Char) ++ (escapeChars t ++ '"' :: rest)
              = '\\' :: 'u' :: '0' :: '0' :: hexChar (c.toNat / 16)
                :: hexChar (c.toNat % 16) :: (escapeChars t ++ '"' :: rest) from rfl]
          rw [parseStrBody_cons]
          have hdiv : c.toNat / 16 < 16 := by omega
          have hmod : c.toNat % 16 < 16 := by omega
          have hval : (((0 * 16 + 0) * 16 + c.toNat / 16) * 16 + c.toNat % 16)
              = c.toNat := by omega
          simp [show hexVal '0' = some 0 from by decide,
            hexVal_hexChar _ hdiv, hexVal_hexChar _ hmod, ih, hval,
            Char.ofNat_toNat]
          rw [show c.toNat / 16 * 16 + c.toNat % 16 = c.toNat from by omega,
            Char.ofNat_toNat]
        · rw [show escChar c = [c] from by
            simp only [escChar, h1, if_false, h2, h3]]
          rw [show ([c] : List Char) ++ (escapeChars t ++ '"' :: rest)
              = c :: (escapeChars t ++ '"' :: rest) from rfl]
          rw [parseStrBody_cons]
          simp only [h1, if_false, h2, h3, ih]

theorem skipWs_cons {c : Char} (h : isWs c = false) (cs : List Char) :
    skipWs (c :: cs) = c :: cs := by
  rw [skipWs]
  simp [h]

theorem skipWs_space (cs : List Char) : skipWs (' ' :: cs) = skipWs cs := by
  rw [skipWs]
  simp [isWs]

theorem not_ws_of_toNat {c : Char} (h32 : c.toNat ≠ 32) (h10 : c.toNat ≠ 10)
    (h9 : c.toNat ≠ 9) (h13 : c.toNat ≠ 13) : isWs c = false := by
  unfold isWs
  rw [decide_eq_false (char_ne_of_toNat h32),
    decide_eq_false (char_ne_of_toNat h10),
    decide_eq_false (char_ne_of_toNat h9),
    decide_eq_false (char_ne_of_toNat h13)]
  rfl

/-- The first character a serialized value puts on the wire is neither
whitespace nor a closing bracket. -/
theorem dumpJson_head (j : Json) :
    ∃ c cs, dumpJson j = c :: cs ∧ isWs c = false ∧ c ≠ ']' := by
  cases j with
  | null => exact ⟨'n', _, rfl, by decide, by decide⟩
  | bool b =>
    cases b with
    | true => exact ⟨'t', _, rfl, by decide, by decide⟩
    | false => exact ⟨'f', _, rfl, by decide, by decide⟩
  | num n =>
    rw [show dumpJson (Json.num n) = intChars n from rfl]
    unfold intChars
    split
    · exact ⟨'-', _, rfl, by decide, by decide⟩
    · obtain ⟨c, cs, hc, hd⟩ := natChars_head n.toNat
      have hr := isDigit_toNat hd
      refine ⟨c, cs, hc, ?_, ?_⟩
      · exact not_ws_of_toNat (by omega) (by omega) (by omega) (by omega)
      · refine char_ne_of_toNat ?_
        show c.toNat ≠ 93
        omega
  | str s => exact ⟨'"', _, rfl, by decide, by decide⟩
  | arr es => exact ⟨'[', _, rfl, by decide, by decide⟩
  | obj ms => exact ⟨'\x7b', _, rfl, by decide, by decide⟩

theorem skipWs_dumpJson (j : Json) (tail : List Char) :
    skipWs (dumpJson j ++ tail) = dumpJson j ++ tail := by
  obtain ⟨c, cs, hc, hws, _⟩ := dumpJson_head j
  rw [hc, List.cons_append, skipWs_cons hws]

theorem skipWs_dumpElems (es : List Json) (tail : List Char) :
    skipWs (dumpElems es ++ tail) = dumpElems es ++ tail ∨ dumpElems es = [] := by
  cases es with
  | nil => exact Or.inr rfl
  | cons x t =>
    left
    cases t with
    | nil =>
      rw [show dumpElems [x] = dumpJson x from rfl]
      exact skipWs_dumpJson x tail
    | cons y t2 =>
      rw [show dumpElems (x :: y :: t2)
            = dumpJson x ++ ',' :: ' ' :: dumpElems (y :: t2) from rfl,
        List.append_assoc]
      exact skipWs_dumpJson x _

theorem parseVal_notlit (g : Nat) (c : Char) (rest : List Char)
    (hws : isWs c = false)
    (hn : ¬c = 'n') (ht : ¬c = 't') (hf : ¬c = 'f') (hq : ¬c = '"')
    (hlb : ¬c = '[') (hob : ¬c = '\x7b') :
    parseVal (g + 1) (c :: rest)
      = match parseNumber (c :: rest) with
        | some (n, r) => some (Json.num n, r)
        | none => none := by
  rw [parseVal, skipWs_cons hws]
  simp only [eq_false hn, eq_false ht, eq_false hf, eq_false hq,
    eq_false hlb, eq_false hob, if_false]

theorem parseVal_arrStep (g : Nat) (cs : List Char) :
    parseVal (g + 1) ('[' :: cs)
      = match parseElems g (skipWs cs) with
        | some (vs, r) => some (Json.arr vs, r)
        | none => none := by
  rw [parseVal, skipWs_cons (by decide)]
  simp only [show (('[' : Char) = 'n') = False from by decide,
    show (('[' : Char) = 't') = False from by decide,
    show (('[' : Char) = 'f') = False from by decide,
    show (('[' : Char) = '"') = False from by decide,
    show (('[' : Char) = '[') = True from by decide,
    if_false, if_true]

theorem parseVal_objStep (g : Nat) (cs : List Char) :
    parseVal (g + 1) ('\x7b' :: cs)
      = match parseMembers g (skipWs cs) with
        | some (ms, r) => some (Json.obj ms, r)
        | none => none := by
  rw [parseVal, skipWs_cons (by decide)]
  simp only [show (('\x7b' : Char) = 'n') = False from by decide,
    show (('\x7b' : Char) = 't') = False from by decide,
    show (('\x7b' : Char) = 'f') = False from by decide,
    show (('\x7b' : Char) = '"') = False from by decide,
    show (('\x7b' : Char) = '[') = False from by decide,
    show (('\x7b' : Char) = '\x7b') = True from by decide,
    if_false, if_true]

theorem parseVal_strStep (g : Nat) (cs : List Char) :
    parseVal (g + 1) ('"' :: cs)
      = match parseStrBody cs with
        | some (s, r) => some (Json.str (String.mk s), r)
        | none => none := by
  rw [parseVal, skipWs_cons (by decide)]
  simp only [show (('"' : Char) = 'n') = False from by decide,
    show (('"' : Char) = 't') = False from by decide,
    show (('"' : Char) = 'f') = False from by decide,
    show (('"' : Char) = '"') = True from by decide,
    if_false, if_true]

theorem parseElems_cons (g : Nat) (c : Char) (cs : List Char) :
    parseElems (g + 1) (c :: cs)
      = if c = ']' then some ([], cs)
        else
          match parseVal g (c :: cs) with
          | none => none
          | some (v, r1) =>
            match skipWs r1 with
            | ',' :: r2 =>
              match skipWs r2 with
              | [] => none
              | c2 :: rest2 =>
                if c2 = ']' then none
                else
                  match parseElems g (c2 :: rest2) with
                  | some (vs, r3) => some (v :: vs, r3)
                  | none => none
            | ']' :: r2 => some ([v], r2)
            | _ => none := by
  rw [parseElems]

theorem parseMembers_cons (g : Nat) (c : Char) (cs : List Char) :
    parseMembers (g + 1) (c :: cs)
      = if c = '\x7d' then some ([], cs)
        else if c = '"' then
          match parseStrBody cs with
          | none => none
          | some (k, r1) =>
            match skipWs r1 with
            | ':' :: r2 =>
              match parseVal g (skipWs r2) with
              | none => none
              | some (v, r3) =>
                match skipWs r3 with
                | ',' :: r4 =>
                  match skipWs r4 with
                  | '"' :: r5 =>
                    match parseMembers g ('"' :: r5) with
                    | some (ms, r6) => some ((String.mk k, v) :: ms, r6)
                    | none => none
                  | _ => none
                | '\x7d' :: r4 => some ([(String.mk k, v)], r4)
                | _ => none
            | _ => none
        else none := by
  rw [parseMembers]

theorem dumpElems_cons_head (y : Json) (t2 : List Json) :
    ∃ c cs, dumpElems (y :: t2) = c :: cs ∧ isWs c = false ∧ c ≠ ']' := by
  obtain ⟨c, cs, hc, hws, hrb⟩ := dumpJson_head y
  cases t2 with
  | nil =>
    exact ⟨c, cs, by rw [show dumpElems [y] = dumpJson y from rfl, hc], hws, hrb⟩
  | cons z t3 =>
    refine ⟨c, cs ++ ',' :: ' ' :: dumpElems (z :: t3), ?_, hws, hrb⟩
    rw [show dumpElems (y :: z :: t3)
        = dumpJson y ++ ',' :: ' ' :: dumpElems (z :: t3) from rfl, hc,
      List.cons_append]

theorem dumpMembers_cons_head (m : String × Json) (t : List (String × Json)) :
    ∃ cs, dumpMembers (m :: t) = '"' :: cs := by
  obtain ⟨k, v⟩ := m
  cases t with
  | nil => exact ⟨_, rfl⟩
  | cons m2 t2 => exact ⟨_, rfl⟩

mutual

theorem parseVal_dump (j : Json) (g : Nat) (rest : List Char)
    (hrest : headNotDigit rest = true) :
    parseVal (needFuel j + g) (dumpJson j ++ rest) = some (j, rest) := by
  cases j with
  | null =>
    rw [show needFuel Json.null + g = g + 1 from by rw [needFuel]; omega,
      show dumpJson Json.null ++ rest = 'n' :: 'u' :: 'l' :: 'l' :: rest from rfl,
      parseVal, skipWs_cons (by decide)]
    simp
  | bool b =>
    cases b with
    | true =>
      rw [show needFuel (Json.bool true) + g = g + 1 from by rw [needFuel]; omega,
        show dumpJson (Json.bool true) ++ rest
          = 't' :: 'r' :: 'u' :: 'e' :: rest from rfl,
        parseVal, skipWs_cons (by decide)]
      simp
    | false =>
      rw [show needFuel (Json.bool false) + g = g + 1 from by rw [needFuel]; omega,
        show dumpJson (Json.bool false) ++ rest
          = 'f' :: 'a' :: 'l' :: 's' :: 'e' :: rest from rfl,
        parseVal, skipWs_cons (by decide)]
      simp
  | num n =>
    rw [show needFuel (Json.num n) + g = g + 1 from by rw [needFuel]; omega]
    have hpn := parseNumber_intChars n rest hrest
    rw [show dumpJson (Json.num n) = intChars n from rfl]
    by_cases hneg : n < 0
    · rw [show intChars n = '-' :: natChars n.natAbs from by
        unfold intChars; rw [if_pos hneg]] at hpn ⊢
      rw [List.cons_append] at hpn ⊢
      rw [parseVal_notlit g '-' _ (by decide) (by decide) (by decide)
        (by decide) (by decide) (by decide) (by decide), hpn]
    · rw [show intChars n = natChars n.toNat from by
        unfold intChars; rw [if_neg hneg]] at hpn ⊢
      obtain ⟨c, cs, hc, hd⟩ := natChars_head n.toNat
      have hr := isDigit_toNat hd
      rw [hc] at hpn ⊢
      rw [List.cons_append] at hpn ⊢
      rw [parseVal_notlit g c _
        (not_ws_of_toNat (by omega) (by omega) (by omega) (by omega))
        (char_ne_of_toNat (show c.toNat ≠ 110 by omega))
        (char_ne_of_toNat (show c.toNat ≠ 116 by omega))
        (char_ne_of_toNat (show c.toNat ≠ 102 by omega))
        (char_ne_of_toNat (show c.toNat ≠ 34 by omega))
        (char_ne_of_toNat (show c.toNat ≠ 91 by omega))
        (char_ne_of_toNat (show c.toNat ≠ 123 by omega)), hpn]
  | str s =>
    rw [show needFuel (Json.str s) + g = g + 1 from by rw [needFuel]; omega,
      show dumpJson (Json.str s) ++ rest
        = '"' :: (escapeChars s.data ++ ('"' :: rest)) from by
        rw [show dumpJson (Json.str s)
            = '"' :: (escapeChars s.data ++ ['"']) from rfl]
        simp,
      parseVal_strStep, parseStrBody_escape]
  | arr es =>
    rw [show needFuel (Json.arr es) + g = needElems es + g + 1 from by
      rw [needFuel]; omega]
    rw [show dumpJson (Json.arr es) ++ rest
        = '[' :: (dumpElems es ++ (']' :: rest)) from by
      rw [show dumpJson (Json.arr es) = '[' :: (dumpElems es ++ [']']) from rfl]
      simp]
    rw [parseVal_arrStep]
    have hskip : skipWs (dumpElems es ++ (']' :: rest)) = dumpElems es ++ (']' :: rest) := by
      rcases skipWs_dumpElems es (']' :: rest) with h | h
      · exact h
      · rw [h, List.nil_append, skipWs_cons (by decide)]
    rw [hskip, parseElems_dump es g rest]
  | obj ms =>
    rw [show needFuel (Json.obj ms) + g = needMembers ms + g + 1 from by
      rw [needFuel]; omega]
    rw [show dumpJson (Json.obj ms) ++ rest
        = '\x7b' :: (dumpMembers ms ++ ('\x7d' :: rest)) from by
      rw [show dumpJson (Json.obj ms)
          = '\x7b' :: (dumpMembers ms ++ ['\x7d']) from rfl]
      simp]
    rw [parseVal_objStep]
    have hskip : skipWs (dumpMembers ms ++ ('\x7d' :: rest))
        = dumpMembers ms ++ ('\x7d' :: rest) := by
      cases ms with
      | nil => rw [show dumpMembers [] = [] from rfl, List.nil_append,
          skipWs_cons (by decide)]
      | cons kv t =>
        obtain ⟨k, v⟩ := kv
        cases t with
        | nil =>
          rw [show dumpMembers [(k, v)]
              = '"' :: (escapeChars k.data ++ '"' :: ':' :: ' ' :: dumpJson v) from rfl,
            List.cons_append, skipWs_cons (by decide)]
        | cons m t2 =>
          rw [show dumpMembers ((k, v) :: m :: t2)
              = '"' :: ((escapeChars k.data ++ '"' :: ':' :: ' ' :: dumpJson v)
                ++ ',' :: ' ' :: dumpMembers (m :: t2)) from rfl,
            List.cons_append, skipWs_cons (by decide)]
    rw [hskip, parseMembers_dump ms g rest]

theorem parseElems_dump (es : List Json) (g : Nat) (rest : List Char) :
    parseElems (needElems es + g) (dumpElems es ++ (']' :: rest))
      = some (es, rest) := by
  cases es with
  | nil =>
    rw [show needElems [] + g = g + 1 from by rw [needElems]; omega,
      show dumpElems [] ++ (']' :: rest) = ']' :: rest from rfl,
      parseElems_cons]
    simp
  | cons x t =>
    cases t with
    | nil =>
      rw [show needElems [x] + g = needFuel x + g + 1 from by
        rw [needElems]; omega,
        show dumpElems [x] = dumpJson x from rfl]
      obtain ⟨c, cs, hc, hws, hrb⟩ := dumpJson_head x
      have hv : parseVal (needFuel x + g) (c :: (cs ++ (']' :: rest)))
          = some (x, ']' :: rest) := by
        rw [← List.cons_append, ← hc]
        exact parseVal_dump x g (']' :: rest) rfl
      have hs : skipWs (']' :: rest) = ']' :: rest := skipWs_cons (by decide) rest
      rw [hc, List.cons_append, parseElems_cons]
      simp only [eq_false hrb, if_false, hv, hs]
    | cons y t2 =>
      rw [show needElems (x :: y :: t2) + g
          = needFuel x + (needElems (y :: t2) + g) + 1 from by
        rw [needElems]; omega,
        show dumpElems (x :: y :: t2)
          = dumpJson x ++ ',' :: ' ' :: dumpElems (y :: t2) from rfl,
        List.append_assoc]
      simp only [List.cons_append]
      obtain ⟨c, cs, hc, hws, hrb⟩ := dumpJson_head x
      obtain ⟨c2, cs2, hc2, hws2, hrb2⟩ := dumpElems_cons_head y t2
      have hv : parseVal (needFuel x + (needElems (y :: t2) + g))
          (c :: (cs ++ (',' :: ' ' :: (dumpElems (y :: t2) ++ (']' :: rest)))))
          = some (x, ',' :: ' ' :: (dumpElems (y :: t2) ++ (']' :: rest))) := by
        rw [← List.cons_append, ← hc]
        exact parseVal_dump x (needElems (y :: t2) + g) _ rfl
      have hs1 : skipWs (',' :: ' ' :: (dumpElems (y :: t2) ++ (']' :: rest)))
          = ',' :: ' ' :: (dumpElems (y :: t2) ++ (']' :: rest)) :=
        skipWs_cons (by decide) _
      have hs2 : skipWs (' ' :: (dumpElems (y :: t2) ++ (']' :: rest)))
          = c2 :: (cs2 ++ (']' :: rest)) := by
        rw [skipWs_space, hc2, List.cons_append,
          skipWs_cons hws2]
      have hrec : parseElems (needFuel x + (needElems (y :: t2) + g))
          (c2 :: (cs2 ++ (']' :: rest))) = some (y :: t2, rest) := by
        rw [← List.cons_append, ← hc2,
          show needFuel x + (needElems (y :: t2) + g)
            = needElems (y :: t2) + (needFuel x + g) from by omega]
        exact parseElems_dump (y :: t2) (needFuel x + g) rest
      rw [hc, List.cons_append, parseElems_cons]
      simp only [eq_false hrb, if_false, hv, hs1, hs2, eq_false hrb2, hrec]

theorem parseMembers_dump (ms : List (String × Json)) (g : Nat) (rest : List Char) :
    parseMembers (needMembers ms + g) (dumpMembers ms ++ ('\x7d' :: rest))
      = some (ms, rest) := by
  cases ms with
  | nil =>
    rw [show needMembers [] + g = g + 1 from by rw [needMembers]; omega,
      show dumpMembers [] ++ ('\x7d' :: rest) = '\x7d' :: rest from rfl,
      parseMembers_cons]
    simp
  | cons kv t =>
    obtain ⟨k, v⟩ := kv
    cases t with
    | nil =>
      rw [show needMembers [(k, v)] + g = needFuel v + g + 1 from by
        rw [needMembers]; omega,
        show dumpMembers [(k, v)] ++ ('\x7d' :: rest)
          = '"' :: (escapeChars k.data
              ++ ('"' :: (':' :: ' ' :: (dumpJson v ++ ('\x7d' :: rest))))) from by
          rw [show dumpMembers [(k, v)]
              = '"' :: (escapeChars k.data ++ '"' :: ':' :: ' ' :: dumpJson v) from rfl]
          simp,
        parseMembers_cons]
      have hk : parseStrBody (escapeChars k.data
          ++ ('"' :: (':' :: ' ' :: (dumpJson v ++ ('\x7d' :: rest)))))
          = some (k.data, ':' :: ' ' :: (dumpJson v ++ ('\x7d' :: rest))) := by
        rw [← parseStrBody_escape k.data
          (':' :: ' ' :: (dumpJson v ++ ('\x7d' :: rest)))]
      have hs1 : skipWs (':' :: ' ' :: (dumpJson v ++ ('\x7d' :: rest)))
          = ':' :: ' ' :: (dumpJson v ++ ('\x7d' :: rest)) :=
        skipWs_cons (by decide) _
      have hs2 : skipWs (' ' :: (dumpJson v ++ ('\x7d' :: rest)))
          = dumpJson v ++ ('\x7d' :: rest) := by
        rw [skipWs_space]
        exact skipWs_dumpJson v _
      have hv : parseVal (needFuel v + g) (dumpJson v ++ ('\x7d' :: rest))
          = some (v, '\x7d' :: rest) :=
        parseVal_dump v g ('\x7d' :: rest) rfl
      have hs3 : skipWs ('\x7d' :: rest) = '\x7d' :: rest :=
        skipWs_cons (by decide) rest
      simp only [show (('"' : Char) = '\x7d') = False from by decide,
        show (('"' : Char) = '"') = True from by decide, if_false, if_true,
        hk, hs1, hs2, hv, hs3, string_mk_data]
    | cons m t2 =>
      rw [show needMembers ((k, v) :: m :: t2) + g
          = needFuel v + (needMembers (m :: t2) + g) + 1 from by
        rw [needMembers]; omega,
        show dumpMembers ((k, v) :: m :: t2) ++ ('\x7d' :: rest)
          = '"' :: (escapeChars k.data
              ++ ('"' :: (':' :: ' ' :: (dumpJson v
                ++ (',' :: ' ' :: (dumpMembers (m :: t2) ++ ('\x7d' :: rest))))))) from by
          rw [show dumpMembers ((k, v) :: m :: t2)
              = '"' :: ((escapeChars k.data ++ '"' :: ':' :: ' ' :: dumpJson v)
                ++ ',' :: ' ' :: dumpMembers (m :: t2)) from rfl]
          simp,
        parseMembers_cons]
      obtain ⟨w, hw⟩ := dumpMembers_cons_head m t2
      have hk : parseStrBody (escapeChars k.data
          ++ ('"' :: (':' :: ' ' :: (dumpJson v
            ++ (',' :: ' ' :: (dumpMembers (m :: t2) ++ ('\x7d' :: rest)))))))
          = some (k.data, ':' :: ' ' :: (dumpJson v
            ++ (',' :: ' ' :: (dumpMembers (m :: t2) ++ ('\x7d' :: rest))))) :=
        parseStrBody_escape k.data _
      have hs1 : skipWs (':' :: ' ' :: (dumpJson v
          ++ (',' :: ' ' :: (dumpMembers (m :: t2) ++ ('\x7d' :: rest)))))
          = ':' :: ' ' :: (dumpJson v
            ++ (',' :: ' ' :: (dumpMembers (m :: t2) ++ ('\x7d' :: rest)))) :=
        skipWs_cons (by decide) _
      have hs2 : skipWs (' ' :: (dumpJson v
          ++ (',' :: ' ' :: (dumpMembers (m :: t2) ++ ('\x7d' :: rest)))))
          = dumpJson v ++ (',' :: ' ' :: (dumpMembers (m :: t2) ++ ('\x7d' :: rest))) := by
        rw [skipWs_space]
        exact skipWs_dumpJson v _
      have hv : parseVal (needFuel v + (needMembers (m :: t2) + g))
          (dumpJson v ++ (',' :: ' ' :: (dumpMembers (m :: t2) ++ ('\x7d' :: rest))))
          = some (v, ',' :: ' ' :: (dumpMembers (m :: t2) ++ ('\x7d' :: rest))) :=
        parseVal_dump v (needMembers (m :: t2) + g) _ rfl
      have hs3 : skipWs (',' :: ' ' :: (dumpMembers (m :: t2) ++ ('\x7d' :: rest)))
          = ',' :: ' ' :: (dumpMembers (m :: t2) ++ ('\x7d' :: rest)) :=
        skipWs_cons (by decide) _
      have hs4 : skipWs (' ' :: (dumpMembers (m :: t2) ++ ('\x7d' :: rest)))
          = '"' :: (w ++ ('\x7d' :: rest)) := by
        rw [skipWs_space, hw, List.cons_append, skipWs_cons (by decide)]
      have hrec : parseMembers (needFuel v + (needMembers (m :: t2) + g))
          ('"' :: (w ++ ('\x7d' :: rest))) = some (m :: t2, rest) := by
        rw [← List.cons_append, ← hw,
          show needFuel v + (needMembers (m :: t2) + g)
            = needMembers (m :: t2) + (needFuel v + g) from by omega]
        exact parseMembers_dump (m :: t2) (needFuel v + g) rest
      simp only [show (('"' : Char) = '\x7d') = False from by decide,
        show (('"' : Char) = '"') = True from by decide, if_false, if_true,
        hk, hs1, hs2, hv, hs3, hs4, hrec, string_mk_data]

end

mutual

theorem needFuel_le (j : Json) : needFuel j ≤ (dumpJson j).length + 1 := by
  cases j with
  | null => rw [needFuel]; omega
  | bool b => rw [needFuel]; omega
  | num n => rw [needFuel]; omega
  | str s => rw [needFuel]; omega
  | arr es =>
    rw [needFuel, show dumpJson (Json.arr es)
      = '[' :: (dumpElems es ++ [']']) from rfl]
    have h := needElems_le es
    simp only [List.length_cons, List.length_append, List.length_cons,
      List.length_nil]
    omega
  | obj ms =>
    rw [needFuel, show dumpJson (Json.obj ms)
      = '\x7b' :: (dumpMembers ms ++ ['\x7d']) from rfl]
    have h := needMembers_le ms
    simp only [List.length_cons, List.length_append, List.length_cons,
      List.length_nil]
    omega

theorem needElems_le (es : List Json) :
    needElems es ≤ (dumpElems es).length + 2 := by
  cases es with
  | nil => rw [needElems]; omega
  | cons x t =>
    cases t with
    | nil =>
      rw [needElems, show dumpElems [x] = dumpJson x from rfl]
      have h := needFuel_le x
      omega
    | cons y t2 =>
      rw [needElems, show dumpElems (x :: y :: t2)
        = dumpJson x ++ ',' :: ' ' :: dumpElems (y :: t2) from rfl]
      have h1 := needFuel_le x
      have h2 := needElems_le (y :: t2)
      simp only [List.length_append, List.length_cons]
      omega

theorem needMembers_le (ms : List (String × Json)) :
    needMembers ms ≤ (dumpMembers ms).length + 2 := by
  cases ms with
  | nil => rw [needMembers]; omega
  | cons kv t =>
    obtain ⟨k, v⟩ := kv
    cases t with
    | nil =>
      rw [needMembers, show dumpMembers [(k, v)]
        = '"' :: (escapeChars k.data ++ '"' :: ':' :: ' ' :: dumpJson v) from rfl]
      have h := needFuel_le v
      simp only [List.length_cons, List.length_append, List.length_cons]
      omega
    | cons m t2 =>
      rw [needMembers, show dumpMembers ((k, v) :: m :: t2)
        = '"' :: ((escapeChars k.data ++ '"' :: ':' :: ' ' :: dumpJson v)
          ++ ',' :: ' ' :: dumpMembers (m :: t2)) from rfl]
      have h1 := needFuel_le v
      have h2 := needMembers_le (m :: t2)
      simp only [List.length_cons, List.length_append, List.length_cons]
      omega

end

/-- Round trip: `json.load` recovers exactly what `json.dump` wrote: the codec
round-trips. -/
theorem loadJson_dump (j : Json) : loadJson (dumpJson j) = some j := by
  unfold loadJson
  have hle := needFuel_le j
  have h2 : parseVal (needFuel j + ((dumpJson j).length + 1 - needFuel j))
      (dumpJson j ++ []) = some (j, []) := parseVal_dump j _ [] rfl
  rw [List.append_nil] at h2
  rw [show (dumpJson j).length + 1
      = needFuel j + ((dumpJson j).length + 1 - needFuel j) from by omega, h2]
  rfl

/-- Appending an element never shortens the serialized array, so the
non-truncating write of the grown array leaves no stale bytes behind
when the old content was itself a compact dump. -/
theorem dumpElems_append_le (xs : List Json) (r : Json) :
    (dumpElems xs).length ≤ (dumpElems (xs ++ [r])).length := by
  induction xs with
  | nil => simp [show dumpElems [] = [] from rfl]
  | cons x t ih =>
    cases t with
    | nil =>
      rw [show ([x] : List Json) ++ [r] = [x, r] from rfl,
        show dumpElems [x] = dumpJson x from rfl,
        show dumpElems [x, r] = dumpJson x ++ ',' :: ' ' :: dumpElems [r] from rfl]
      simp
    | cons y t2 =>
      rw [show (x :: y :: t2) ++ [r] = x :: ((y :: t2) ++ [r]) from rfl,
        show (y :: t2) ++ [r] = y :: (t2 ++ [r]) from rfl,
        show dumpElems (x :: y :: t2)
          = dumpJson x ++ ',' :: ' ' :: dumpElems (y :: t2) from rfl,
        show dumpElems (x :: y :: (t2 ++ [r]))
          = dumpJson x ++ ',' :: ' ' :: dumpElems (y :: (t2 ++ [r])) from rfl]
      rw [show (y :: (t2 ++ [r])) = (y :: t2) ++ [r] from rfl]
      simp only [List.length_append, List.length_cons]
      omega

theorem dumpJson_arr_append_le (xs : List Json) (r : Json) :
    (dumpJson (Json.arr xs)).length ≤ (dumpJson (Json.arr (xs ++ [r]))).length := by
  rw [show dumpJson (Json.arr xs) = '[' :: (dumpElems xs ++ [']']) from rfl,
    show dumpJson (Json.arr (xs ++ [r]))
      = '[' :: (dumpElems (xs ++ [r]) ++ [']']) from rfl]
  have := dumpElems_append_le xs r
  simp only [List.length_cons, List.length_append]
  omega

/-! ### The handlers' store operations -/

theorem signup_store (u : UserRegister) (f : List Char) (xs : List Json)
    (hload : loadJson f = some (Json.arr xs)) :
    signup u f = some (writeAt0 f
      (dumpJson (Json.arr (xs ++ [userStoreRecord u]))), u.toUser) := by
  obtain ⟨⟨uid, em, fn, ln, bd⟩, pw⟩ := u
  unfold signup
  rw [hload]
  cases bd <;> rfl

theorem post_store (t : Tweet) (f : List Char) (xs : List Json)
    (hload : loadJson f = some (Json.arr xs)) :
    post t f = some (writeAt0 f
      (dumpJson (Json.arr (xs ++ [tweetStoreRecord t]))), t) := by
  obtain ⟨tid, c, ca, ua, ⟨buid, bem, bfn, bln, bbd⟩⟩ := t
  unfold post
  rw [hload]
  cases ua <;> cases bbd <;> rfl

/-! ### Re-validation of stored records -/

theorem digitChar_isDigit (k : Nat) : (digitChar k).isDigit = true :=
  (digitChar_spec (k % 10) (Nat.mod_lt k (by omega))).1

theorem digitVal_digitChar (k : Nat) : digitVal (digitChar k) = k % 10 := by
  unfold digitVal digitChar
  rw [(digitChar_spec (k % 10) (Nat.mod_lt k (by omega))).2]
  omega

theorem parseUUID_canonical (u : UUIDv) (h : uuidCanonical u.canonical = true) :
    parseUUID u.canonical = some u := by
  unfold parseUUID
  rw [if_pos h]

theorem parseDate_pyStrDate (d : PyDate) (h : dateOk d = true) :
    parseDate (pyStrDate d) = some d := by
  obtain ⟨y, mo, dy⟩ := d
  simp only [dateOk, Bool.and_eq_true, decide_eq_true_eq] at h
  obtain ⟨⟨⟨⟨⟨h1, h2⟩, h3⟩, h4⟩, h5⟩, h6⟩ := h
  unfold pyStrDate pad4 pad2 parseDate
  simp only [List.cons_append, List.nil_append]
  rw [if_pos (by simp [digitChar_isDigit])]
  rw [if_pos (by
    simp only [digitVal_digitChar, Bool.and_eq_true, decide_eq_true_eq]
    omega)]
  simp only [digitVal_digitChar, Option.some.injEq, PyDate.mk.injEq]
  exact ⟨by omega, by omega, by omega⟩

theorem parseDateTime_pyStrDateTime (t : PyDateTime) (h : dateTimeOk t = true) :
    parseDateTime (pyStrDateTime t) = some t := by
  obtain ⟨y, mo, dy, hh, mi, ss⟩ := t
  simp only [dateTimeOk, Bool.and_eq_true, decide_eq_true_eq] at h
  obtain ⟨⟨⟨⟨⟨⟨⟨⟨h1, h2⟩, h3⟩, h4⟩, h5⟩, h6⟩, h7⟩, h8⟩, h9⟩ := h
  unfold pyStrDateTime pad4 pad2 parseDateTime
  simp only [List.cons_append, List.nil_append]
  rw [if_pos (by simp [digitChar_isDigit])]
  rw [if_pos (by
    simp only [digitVal_digitChar, Bool.and_eq_true, decide_eq_true_eq]
    omega)]
  simp only [digitVal_digitChar, Option.some.injEq, PyDateTime.mk.injEq]
  exact ⟨by omega, by omega, by omega, by omega, by omega, by omega⟩

theorem userFromJson_stored (v : User) (bd : PyDate)
    (hok : userOk v = true) (hbd : v.birth_date = some bd) :
    userFromJson (Json.obj [("user_id", Json.str v.user_id.canonical),
      ("email", Json.str v.email),
      ("first_name", Json.str v.first_name),
      ("last_name", Json.str v.last_name),
      ("birth_date", Json.str (pyStrOptDate v.birth_date))]) = some v := by
  obtain ⟨⟨uc⟩, em, fn, ln, vbd⟩ := v
  replace hbd : vbd = some bd := hbd
  subst hbd
  simp only [userOk, Bool.and_eq_true, decide_eq_true_eq] at hok
  obtain ⟨⟨⟨⟨⟨⟨hu, he⟩, hf1⟩, hf2⟩, hl1⟩, hl2⟩, hd⟩ := hok
  unfold userFromJson
  simp [objGet, pyStrOptDate, parseUUID_canonical ⟨uc⟩ hu, he, hf1, hf2,
    hl1, hl2, parseDate_pyStrDate bd hd]

theorem tweetFromJson_stored (m : PyDateTime) (t : Tweet) (udt : PyDateTime)
    (bd : PyDate) (hok : tweetOk t = true) (hua : t.updated_at = some udt)
    (hbd : t.by_.birth_date = some bd) :
    tweetFromJson m (tweetStoreRecord t) = some t := by
  obtain ⟨⟨tc⟩, c, ca, ua, bu⟩ := t
  replace hua : ua = some udt := hua
  replace hbd : bu.birth_date = some bd := hbd
  subst hua
  simp only [tweetOk, Bool.and_eq_true, decide_eq_true_eq] at hok
  obtain ⟨⟨⟨⟨⟨ht, hc1⟩, hc2⟩, hca⟩, hud⟩, hbu⟩ := hok
  unfold tweetStoreRecord tweetFromJson
  simp [objGet, pyStrOptDateTime, parseUUID_canonical ⟨tc⟩ ht, hc1, hc2,
    parseDateTime_pyStrDateTime ca hca, parseDateTime_pyStrDateTime udt hud,
    userFromJson_stored bu bd hbu hbd]

theorem validateList_append {α : Type} (g : Json → Option α) (xs : List Json)
    (ts : List α) (r : Json) (a : α)
    (hxs : validateList g xs = some ts) (hr : g r = some a) :
    validateList g (xs ++ [r]) = some (ts ++ [a]) := by
  induction xs generalizing ts with
  | nil =>
    rw [show validateList g [] = some [] from rfl] at hxs
    cases hxs
    simp only [List.nil_append]
    rw [validateList, hr, validateList]
  | cons x t ih =>
    rw [validateList] at hxs
    cases hgx : g x with
    | none => rw [hgx] at hxs; cases hxs
    | some a1 =>
      rw [hgx] at hxs
      cases hvt : validateList g t with
      | none => rw [hvt] at hxs; cases hxs
      | some ts1 =>
        rw [hvt] at hxs
        cases hxs
        rw [List.cons_append, validateList, hgx, ih ts1 hvt]
        simp

/-- A store file that is the compact serialization of an array grows in
place: the non-truncating write leaves no stale suffix. -/
theorem writeAt0_dump_append (xs : List Json) (r : Json) :
    writeAt0 (dumpJson (Json.arr xs)) (dumpJson (Json.arr (xs ++ [r])))
      = dumpJson (Json.arr (xs ++ [r])) := by
  unfold writeAt0
  rw [List.drop_eq_nil_of_le (dumpJson_arr_append_le xs r), List.append_nil]

/-! ### The claims -/

/-- Claim C1: for every record appended to a store (signup to the users
store, post to the tweets store), the append operation reads the entire
store file, parses it as a JSON array, converts the new record's
non-JSON-native fields — the identifier and every date/time field, and
for a tweet also the user_id and birth_date nested inside the embedded
author — to strings (`userStoreRecord` / `tweetStoreRecord`), appends
the converted record to the in-memory array, seeks to the start of the
file, and writes the full array back without truncating the file: the
new file content is the serialized grown array followed by whatever
bytes of the old content lie beyond it. -/
theorem C1_append_contract :
    (∀ (u : UserRegister) (f : List Char) (xs : List Json),
      loadJson f = some (Json.arr xs) →
      signup u f = some (dumpJson (Json.arr (xs ++ [userStoreRecord u]))
          ++ f.drop (dumpJson (Json.arr (xs ++ [userStoreRecord u]))).length,
        u.toUser))
    ∧ (∀ (t : Tweet) (f : List Char) (xs : List Json),
      loadJson f = some (Json.arr xs) →
      post t f = some (dumpJson (Json.arr (xs ++ [tweetStoreRecord t]))
          ++ f.drop (dumpJson (Json.arr (xs ++ [tweetStoreRecord t]))).length,
        t)) :=
  ⟨fun u f xs h => signup_store u f xs h,
   fun t f xs h => post_store t f xs h⟩

/-- Witness for C1 on the empty store. -/
theorem C1_append_contract_witness :
    loadJson ("[]".data) = some (Json.arr [])
    ∧ signup user0 ("[]".data)
      = some (dumpJson (Json.arr ([] ++ [userStoreRecord user0]))
          ++ ("[]".data).drop
            (dumpJson (Json.arr ([] ++ [userStoreRecord user0]))).length,
        user0.toUser)
    ∧ post tweet0 ("[]".data)
      = some (dumpJson (Json.arr ([] ++ [tweetStoreRecord tweet0]))
          ++ ("[]".data).drop
            (dumpJson (Json.arr ([] ++ [tweetStoreRecord tweet0]))).length,
        tweet0) :=
  ⟨rfl, C1_append_contract.1 user0 ("[]".data) [] rfl,
    C1_append_contract.2 tweet0 ("[]".data) [] rfl⟩

set_option maxRecDepth 100000 in
/-- Counterexample to claim C2 as stated: `tweet1` is a valid Tweet
payload (its optional `updated_at` simply absent, the pydantic
default), yet after POST /post the listing GET / does not yield a list
at all — the record was stored with the string "None" in `updated_at`,
which fails re-validation against `response_model=List[Tweet]`, so the
caller gets a response-validation failure instead. -/
theorem C2_roundtrip_counterexample :
    tweetOk tweet1 = true
    ∧ post tweet1 ("[]".data)
      = some (dumpJson (Json.arr [tweetStoreRecord tweet1]), tweet1)
    ∧ homeEndpoint dt0 (dumpJson (Json.arr [tweetStoreRecord tweet1]))
      = Resp.responseError :=
  ⟨rfl, rfl, rfl⟩


/-- Claim C2 amended: for a valid Tweet payload whose `updated_at` and
author `birth_date` are present, posted onto a store file that is the
compact serialization of a JSON array whose records all re-validate,
POST /post then GET / yields a list containing a record whose content
and author email / first name / last name equal the posted values, with
the identifier and timestamps persisted as their string coercions. -/
theorem C2_roundtrip_amended (m : PyDateTime) (t : Tweet) (f : List Char)
    (xs : List Json) (ts : List Tweet) (udt : PyDateTime) (bd : PyDate)
    (hok : tweetOk t = true)
    (hua : t.updated_at = some udt) (hbd : t.by_.birth_date = some bd)
    (hf : f = dumpJson (Json.arr xs))
    (hxs : validateList (tweetFromJson m) xs = some ts) :
    post t f = some (dumpJson (Json.arr (xs ++ [tweetStoreRecord t])), t)
    ∧ homeEndpoint m (dumpJson (Json.arr (xs ++ [tweetStoreRecord t])))
      = Resp.success 200 (Json.arr ((ts ++ [t]).map encodeTweet))
    ∧ encodeTweet t ∈ (ts ++ [t]).map encodeTweet
    ∧ (∃ rf, encodeTweet t = Json.obj rf
        ∧ objGet rf "content" = some (Json.str t.content)
        ∧ (∃ af, objGet rf "by" = some (Json.obj af)
            ∧ objGet af "email" = some (Json.str t.by_.email)
            ∧ objGet af "first_name" = some (Json.str t.by_.first_name)
            ∧ objGet af "last_name" = some (Json.str t.by_.last_name)))
    ∧ (∃ sf, tweetStoreRecord t = Json.obj sf
        ∧ objGet sf "tweet_id" = some (Json.str t.tweet_id.canonical)
        ∧ objGet sf "created_at" = some (Json.str (pyStrDateTime t.created_at))
        ∧ objGet sf "updated_at"
          = some (Json.str (pyStrOptDateTime t.updated_at))) := by
  subst hf
  refine ⟨?_, ?_, ?_, ?_, ?_⟩
  · have h := post_store t (dumpJson (Json.arr xs)) xs (loadJson_dump _)
    rw [writeAt0_dump_append] at h
    exact h
  · have hv := validateList_append (tweetFromJson m) xs ts (tweetStoreRecord t)
      t hxs (tweetFromJson_stored m t udt bd hok hua hbd)
    unfold homeEndpoint home tweetsOfJson
    simp only [loadJson_dump, hv]
  · simp
  · exact ⟨_, rfl, rfl, _, rfl, rfl, rfl, rfl⟩
  · exact ⟨_, rfl, rfl, rfl, rfl⟩

set_option maxRecDepth 100000 in
/-- Witness for C2 amended, on the empty store. -/
theorem C2_roundtrip_amended_witness :
    tweetOk tweet0 = true
    ∧ tweet0.updated_at = some dt1
    ∧ tweet0.by_.birth_date = some date0
    ∧ ("[]".data) = dumpJson (Json.arr [])
    ∧ validateList (tweetFromJson dt0) [] = some []
    ∧ post tweet0 ("[]".data)
      = some (dumpJson (Json.arr ([] ++ [tweetStoreRecord tweet0])), tweet0)
    ∧ homeEndpoint dt0 (dumpJson (Json.arr ([] ++ [tweetStoreRecord tweet0])))
      = Resp.success 200 (Json.arr (([] ++ [tweet0]).map encodeTweet)) := by
  refine ⟨rfl, rfl, rfl, rfl, rfl, ?_, ?_⟩
  · exact (C2_roundtrip_amended dt0 tweet0 ("[]".data) [] [] dt1 date0
      rfl rfl rfl rfl rfl).1
  · exact (C2_roundtrip_amended dt0 tweet0 ("[]".data) [] [] dt1 date0
      rfl rfl rfl rfl rfl).2.1

/-- Claim C3: for every Person payload satisfying all declared field
constraints, POST /person/new answers with a payload carrying exactly
the same field values — first/last name, age, hair color, married flag
— and no password key. -/
theorem C3_create_person_excludes_password (p : Person)
    (h : personOk p = true) :
    ∃ fs, create_person_endpoint p = Resp.success 201 (Json.obj fs)
      ∧ objGet fs "first_name" = some (Json.str p.first_name)
      ∧ objGet fs "last_name" = some (Json.str p.last_name)
      ∧ objGet fs "age" = some (Json.num p.age)
      ∧ objGet fs "hair_color" = some (match p.hair_color with
          | none => Json.null
          | some hc => Json.str (hairColorValue hc))
      ∧ objGet fs "is_married" = some (match p.is_married with
          | none => Json.null
          | some b => Json.bool b)
      ∧ objGet fs "password" = none
      ∧ fs.length = 5 := by
  refine ⟨encodePyFields ((create_person p).dict.filter
    (fun kv => kv.1 != "password")), ?_, ?_, ?_, ?_, ?_, ?_, ?_, ?_⟩
  · unfold create_person_endpoint
    rw [if_pos h]
    rfl
  all_goals
    obtain ⟨fn, ln, a, hc, im, pw⟩ := p
    cases hc <;> cases im <;> rfl

/-- Witness for C3. -/
theorem C3_create_person_excludes_password_witness :
    personOk person0 = true
    ∧ ∃ fs, create_person_endpoint person0 = Resp.success 201 (Json.obj fs)
      ∧ objGet fs "first_name" = some (Json.str person0.first_name)
      ∧ objGet fs "password" = none :=
  ⟨rfl, match C3_create_person_excludes_password person0 rfl with
    | ⟨fs, h1, h2, _, _, _, _, h7, _⟩ => ⟨fs, h1, h2, h7⟩⟩

/-- Counterexample to claim C4 as stated: the age 200 lies outside
(0, 120], yet GET /person/detail accepts it — the query parameter
declares no numeric bounds — and the handler runs, returning the
name-age dict.  So only person creation enforces the range. -/
theorem C4_age_range_counterexample :
    ¬ (0 < (200 : Int) ∧ (200 : Int) ≤ 120)
    ∧ detailQueryOk none (some 200) = true
    ∧ show_person_query_endpoint none (some 200)
      = Resp.success 200 (Json.obj [("null", Json.num 200)]) :=
  ⟨by omega, rfl, rfl⟩

/-- Claim C4 amended: for every age outside (0, 120], person creation
(POST /person/new) rejects the request with a validation error and the
handler does not run; the detail query (GET /person/detail) validates
only that age is present and an integer, so it accepts every integer
age and runs its handler. -/
theorem C4_age_range_amended :
    (∀ p : Person, (p.age ≤ 0 ∨ 120 < p.age) →
      create_person_endpoint p = Resp.validationError)
    ∧ (∀ a : Int, detailQueryOk none (some a) = true
        ∧ show_person_query_endpoint none (some a)
          = Resp.success 200 (show_person none a)) := by
  constructor
  · intro p h
    unfold create_person_endpoint
    rw [if_neg]
    intro hOK
    simp only [personOk, Bool.and_eq_true, decide_eq_true_eq] at hOK
    rcases h with h | h <;> omega
  · intro a
    exact ⟨rfl, rfl⟩

/-- Witness for C4 amended. -/
theorem C4_age_range_amended_witness :
    ((person200.age ≤ 0 ∨ 120 < person200.age)
      ∧ create_person_endpoint person200 = Resp.validationError)
    ∧ (detailQueryOk none (some 200) = true
      ∧ show_person_query_endpoint none (some 200)
        = Resp.success 200 (show_person none 200)) :=
  ⟨⟨Or.inr (by decide), C4_age_range_amended.1 person200 (Or.inr (by decide))⟩,
   C4_age_range_amended.2 200⟩

/-- Counterexample to claim C5 as stated: person_id 0 is outside the
static set, but the endpoint rejects it with a path-validation error
(the path parameter declares gt=0), not the 404 not-found failure the
claim requires for every id outside the set. -/
theorem C5_static_id_counterexample :
    (0 : Int) ∉ persons
    ∧ show_person_by_id_endpoint 0 = Resp.validationError
    ∧ (Resp.validationError : Resp Json)
      ≠ Resp.httpError 404 "This person doesn\x27t exist!!!" :=
  ⟨by decide, rfl, fun h => Resp.noConfusion h⟩

/-- Claim C5 amended: for every person_id that passes path validation
(greater than 0), ids outside the static set get the 404 not-found
failure and ids inside it get the 200 "It exists!" confirmation;
non-positive ids are rejected with a validation error instead. -/
theorem C5_static_id_amended (pid : Int) (hpos : 0 < pid) :
    (pid ∉ persons →
      show_person_by_id_endpoint pid
        = Resp.httpError 404 "This person doesn\x27t exist!!!")
    ∧ (pid ∈ persons →
      show_person_by_id_endpoint pid
        = Resp.success 200 (Json.obj [(String.mk (intChars pid),
            Json.str "It exists!")])) := by
  constructor
  · intro hmem
    unfold show_person_by_id_endpoint
    rw [if_neg (by omega), if_neg hmem]
  · intro hmem
    unfold show_person_by_id_endpoint
    rw [if_neg (by omega), if_pos hmem]

/-- Witness for C5 amended, at ids 7 and 3. -/
theorem C5_static_id_amended_witness :
    (0 < (7 : Int) ∧ (7 : Int) ∉ persons
      ∧ show_person_by_id_endpoint 7
        = Resp.httpError 404 "This person doesn\x27t exist!!!")
    ∧ (0 < (3 : Int) ∧ (3 : Int) ∈ persons
      ∧ show_person_by_id_endpoint 3
        = Resp.success 200 (Json.obj [(String.mk (intChars 3),
            Json.str "It exists!")])) :=
  ⟨⟨by decide, by decide, (C5_static_id_amended 7 (by decide)).1 (by decide)⟩,
   ⟨by decide, by decide, (C5_static_id_amended 3 (by decide)).2 (by decide)⟩⟩

/-- Claim C6: the Tweet schema's default creation timestamp is a single
value fixed when the schema is defined (datetime.now() at module load),
not computed per request: any two bodies validated without an explicit
created_at receive that same frozen value, so their created_at are
equal. -/
theorem C6_frozen_created_at_default (m : AppClock)
    (fs1 fs2 : List (String × Json)) (t1 t2 : Tweet)
    (hk1 : objGet fs1 "created_at" = none)
    (hk2 : objGet fs2 "created_at" = none)
    (h1 : tweetBodyValidate m (Json.obj fs1) = some t1)
    (h2 : tweetBodyValidate m (Json.obj fs2) = some t2) :
    t1.created_at = tweetCreatedAtDefault m
    ∧ t2.created_at = tweetCreatedAtDefault m
    ∧ t1.created_at = t2.created_at := by
  have key : ∀ (fs : List (String × Json)) (t : Tweet),
      objGet fs "created_at" = none →
      tweetBodyValidate m (Json.obj fs) = some t →
      t.created_at = tweetCreatedAtDefault m := by
    intro fs t hk h
    simp only [tweetBodyValidate, tweetFromJson, hk] at h
    repeat (any_goals (split at h))
    all_goals first
      | exact Option.noConfusion h
      | exact Option.noConfusion h.symm
      | (cases h; rfl)
  exact ⟨key fs1 t1 hk1 h1, key fs2 t2 hk2 h2,
    (key fs1 t1 hk1 h1).trans (key fs2 t2 hk2 h2).symm⟩

set_option maxRecDepth 100000 in
/-- Witness for C6: two concrete bodies without created_at. -/
theorem C6_frozen_created_at_default_witness :
    objGet tweetBody0 "created_at" = none
    ∧ objGet tweetBody1 "created_at" = none
    ∧ tweetBodyValidate ⟨dt0⟩ (Json.obj tweetBody0)
      = some ⟨uuid1, "first", dt0, none, user0.toUser⟩
    ∧ tweetBodyValidate ⟨dt0⟩ (Json.obj tweetBody1)
      = some ⟨uuid0, "second", dt0, none, user0.toUser⟩
    ∧ (⟨uuid1, "first", dt0, none, user0.toUser⟩ : Tweet).created_at
      = (⟨uuid0, "second", dt0, none, user0.toUser⟩ : Tweet).created_at :=
  ⟨rfl, rfl, rfl, rfl,
    (C6_frozen_created_at_default ⟨dt0⟩ tweetBody0 tweetBody1 _ _
      rfl rfl rfl rfl).2.2⟩

/-- Claim C7: every stub endpoint (login, show/update/delete a user,
show/update/delete a tweet) returns a not-implemented-equivalent
response: each handler body is `pass`, so it returns Python None, which
fails the declared response model and leaves the caller with an error
response carrying no implemented behavior — never a resource. -/
theorem C7_stubs_not_implemented :
    renderWithModel encodeUser 200 login = Resp.responseError
    ∧ renderWithModel encodeUser 200 show_a_user = Resp.responseError
    ∧ renderWithModel encodeUser 200 delete_a_user = Resp.responseError
    ∧ renderWithModel encodeUser 200 update_a_user = Resp.responseError
    ∧ renderWithModel encodeTweet 200 show_a_tweet = Resp.responseError
    ∧ renderWithModel encodeTweet 200 delete_a_tweet = Resp.responseError
    ∧ renderWithModel encodeTweet 200 update_a_tweet = Resp.responseError :=
  ⟨rfl, rfl, rfl, rfl, rfl, rfl, rfl⟩

/-- Claim C8: a request to POST /signup or POST /post whose body fails
schema validation is rejected before the handler executes, and the
store file is returned unchanged — no side effect on durable state. -/
theorem C8_validation_failure_no_side_effect :
    (∀ (b : Json) (f : List Char), userRegisterFromJson b = none →
      signupEndpoint b f = (Resp.validationError, f))
    ∧ (∀ (m : PyDateTime) (b : Json) (f : List Char),
      tweetFromJson m b = none →
      postEndpoint m b f = (Resp.validationError, f)) := by
  constructor
  · intro b f h
    unfold signupEndpoint
    rw [h]
  · intro m b f h
    unfold postEndpoint
    rw [h]

/-- Witness for C8: the empty body fails validation on both endpoints
and leaves the store bytes untouched. -/
theorem C8_validation_failure_no_side_effect_witness :
    userRegisterFromJson (Json.obj []) = none
    ∧ signupEndpoint (Json.obj []) ("[]".data)
      = (Resp.validationError, "[]".data)
    ∧ tweetFromJson dt0 (Json.obj []) = none
    ∧ postEndpoint dt0 (Json.obj []) ("[]".data)
      = (Resp.validationError, "[]".data) :=
  ⟨rfl, C8_validation_failure_no_side_effect.1 (Json.obj []) ("[]".data) rfl,
    rfl, C8_validation_failure_no_side_effect.2 dt0 (Json.obj []) ("[]".data) rfl⟩

/-- Claim C9: for every valid PUT /person/person_id request, the
response is the merge of the id, all person fields, and all location
fields, and the password is present verbatim — nothing is stripped
(this route declares no response model). -/
theorem C9_update_person_keeps_password (pid : Int) (p : Person)
    (l : Location) (hpid : 0 < pid) (hp : personOk p = true)
    (hl : locationOk l = true) :
    update_person pid p l = ("id", PyVal.vInt pid) :: (p.dict ++ l.dict)
    ∧ update_person_endpoint pid p l
      = Resp.success 200 (Json.obj (encodePyFields (update_person pid p l)))
    ∧ objGet (encodePyFields (update_person pid p l)) "password"
      = some (Json.str p.password) := by
  have hmerge : update_person pid p l
      = ("id", PyVal.vInt pid) :: (p.dict ++ l.dict) := by
    simp [update_person, dictUpdate, Person.dict, Location.dict, setKey]
  refine ⟨hmerge, ?_, ?_⟩
  · unfold update_person_endpoint
    rw [if_pos (by simp [hp, hl, hpid])]
  · rw [hmerge]
    simp [Person.dict, Location.dict, encodePyFields, objGet, encodePyVal]

/-- Witness for C9. -/
theorem C9_update_person_keeps_password_witness :
    0 < (9 : Int) ∧ personOk person0 = true ∧ locationOk location0 = true
    ∧ update_person 9 person0 location0
      = ("id", PyVal.vInt 9) :: (person0.dict ++ location0.dict)
    ∧ objGet (encodePyFields (update_person 9 person0 location0)) "password"
      = some (Json.str person0.password) :=
  ⟨by decide, rfl, rfl,
    (C9_update_person_keeps_password 9 person0 location0 (by decide) rfl rfl).1,
    (C9_update_person_keeps_password 9 person0 location0 (by decide) rfl rfl).2.2⟩

/-- Claim C10: a signup without birth_date, and a posted tweet without
updated_at, persist the literal string "None" for that field (the
string coercion of Python None), not a JSON null — while the HTTP
response of the same request still shows the field as null. -/
theorem C10_none_stored_as_string :
    (∀ (u : UserRegister) (f : List Char) (xs : List Json),
      u.birth_date = none → loadJson f = some (Json.arr xs) →
      (∃ rf, userStoreRecord u = Json.obj rf
        ∧ objGet rf "birth_date" = some (Json.str "None"))
      ∧ signup u f = some (writeAt0 f
          (dumpJson (Json.arr (xs ++ [userStoreRecord u]))), u.toUser)
      ∧ (∃ uf, encodeUser u.toUser = Json.obj uf
        ∧ objGet uf "birth_date" = some Json.null))
    ∧ (∀ (t : Tweet) (f : List Char) (xs : List Json),
      t.updated_at = none → loadJson f = some (Json.arr xs) →
      (∃ rf, tweetStoreRecord t = Json.obj rf
        ∧ objGet rf "updated_at" = some (Json.str "None"))
      ∧ post t f = some (writeAt0 f
          (dumpJson (Json.arr (xs ++ [tweetStoreRecord t]))), t)
      ∧ (∃ tf, encodeTweet t = Json.obj tf
        ∧ objGet tf "updated_at" = some Json.null)) := by
  constructor
  · intro u f xs hb hload
    refine ⟨⟨_, rfl, ?_⟩, signup_store u f xs hload, ⟨_, rfl, ?_⟩⟩
    · rw [hb]; rfl
    · rw [hb]; rfl
  · intro t f xs hu hload
    refine ⟨⟨_, rfl, ?_⟩, post_store t f xs hload, ⟨_, rfl, ?_⟩⟩
    · rw [hu]; rfl
    · rw [hu]; rfl

/-- Witness for C10. -/
theorem C10_none_stored_as_string_witness :
    user1.birth_date = none ∧ tweet1.updated_at = none
    ∧ loadJson ("[]".data) = some (Json.arr [])
    ∧ (∃ rf, userStoreRecord user1 = Json.obj rf
        ∧ objGet rf "birth_date" = some (Json.str "None"))
    ∧ (∃ tf, encodeTweet tweet1 = Json.obj tf
        ∧ objGet tf "updated_at" = some Json.null) :=
  ⟨rfl, rfl, rfl,
    (C10_none_stored_as_string.1 user1 ("[]".data) [] rfl rfl).1,
    (C10_none_stored_as_string.2 tweet1 ("[]".data) [] rfl rfl).2.2⟩

end SocialNet
